import Mathlib

/-!
# RunControl life cycle

A shallow embedding of the run-control state machine of
`src/plugins/projectexplorer/runconfiguration.cpp` (`RunControlPrivate`,
`RunControl`, `TargetRunner`, `ToolRunner`, `SimpleTargetRunner`).

The C++ object is a record of fields mutated in place; here every member function
is a pure function from the record before the call to the record after it.  Two
fields are added to the record to make the effects of a call visible:

* `pending`: the calls handed to `QTimer::singleShot(0, ...)` that the event loop has
  not run yet, oldest first;
* `trace`: everything the call made observable (signals emitted, runner hooks
  invoked, `qDebug()` lines, assignments to `state`), oldest first, each entry paired
  with the values `state` and `applicationProcessHandle` had at that moment.
-/

namespace ProjectExplorer

/-- The enumeration `RunControlPrivate::State` (runconfiguration.cpp:533-543). -/
inductive State where
  | Initialized
  | TargetPreparing
  | ToolPreparing
  | TargetStarting
  | ToolStarting
  | Running
  | ToolStopping
  | TargetStopping
  | Stopped
  deriving DecidableEq, Repr

/-- The nine enumerators in declaration order. -/
def State.all : List State :=
  [.Initialized, .TargetPreparing, .ToolPreparing, .TargetStarting, .ToolStarting,
   .Running, .ToolStopping, .TargetStopping, .Stopped]

/-- The value of `int(state)`: the position of the enumerator. -/
def State.toInt : State → Nat
  | .Initialized => 0
  | .TargetPreparing => 1
  | .ToolPreparing => 2
  | .TargetStarting => 3
  | .ToolStarting => 4
  | .Running => 5
  | .ToolStopping => 6
  | .TargetStopping => 7
  | .Stopped => 8

/-- The members of `Utils::OutputFormat` this file uses. -/
inductive OutputFormat where
  | NormalMessageFormat
  | ErrorMessageFormat
  | LogMessageFormat
  | DebugFormat
  | StdOutFormatSameLine
  | StdErrFormatSameLine
  deriving DecidableEq, Repr

/-- Modelled from the spec: `Utils::ProcessHandle` is declared outside the given sources;
the spec describes it as an identifier such as a PID whose default value means
"no process".  A handle is its PID. -/
abbrev ProcessHandle := Nat

/-- The default-constructed handle `Utils::ProcessHandle()`. -/
def noProcess : ProcessHandle := 0

/-- The six calls the orchestrator defers with `QTimer::singleShot(0, runner, ...)`. -/
inductive Cmd where
  | targetPrepare
  | toolPrepare
  | targetStart
  | toolStart
  | toolStop
  | targetStop
  deriving DecidableEq, Repr

/-- True for the commands addressed to the target runner. -/
def Cmd.isTarget : Cmd → Bool
  | .targetPrepare => true
  | .targetStart => true
  | .targetStop => true
  | _ => false

/-- What a call makes observable. -/
inductive Ev where
  /-- Embeds `emit appendMessageRequested(this, msg, format)`. -/
  | appendMessage (msg : String) (format : OutputFormat)
  /-- Embeds `emit aboutToStart()`. -/
  | aboutToStart
  /-- Embeds `emit started()`. -/
  | started
  /-- Embeds `emit finished()`. -/
  | finished
  /-- Embeds `emit applicationProcessHandleChanged(...)`. -/
  | applicationProcessHandleChanged
  /-- Embeds `toolRunner->onTargetFailure()`. -/
  | toolOnTargetFailure
  /-- Embeds `targetRunner->onToolFailure()`. -/
  | targetOnToolFailure
  /-- Embeds `toolRunner->onStop()`. -/
  | toolOnStop
  /-- Embeds `targetRunner->onStop()`. -/
  | targetOnStop
  /-- Embeds `toolRunner->onFinished()`. -/
  | toolOnFinished
  /-- Embeds `targetRunner->onFinished()`. -/
  | targetOnFinished
  /-- The `qDebug()` line of `checkState`. -/
  | qDebugUnexpectedState (expected have_ : State)
  /-- The `qDebug()` line of `setState`. -/
  | qDebugInvalidTransition (src dst : State)
  /-- The assignment `state = newState` of `setState` (line 1125). -/
  | stateAssigned (old new : State)
  deriving DecidableEq, Repr

/-- One trace entry: the event and what `state` and `applicationProcessHandle` held
when it happened (what a connected slot or a runner hook would read). -/
structure Obs where
  ev : Ev
  state : State
  handle : ProcessHandle
  deriving DecidableEq, Repr

/-- The fields of `RunControlPrivate` the life cycle reads and writes, with the event
loop queue and the trace. -/
structure RunControlPrivate where
  state : State
  applicationProcessHandle : ProcessHandle
  pending : List Cmd
  trace : List Obs
  deriving DecidableEq, Repr

/-- A freshly constructed run control: `State state = State::Initialized`, a default
process handle, nothing queued, nothing observed. -/
def RunControlPrivate.init : RunControlPrivate :=
  { state := .Initialized, applicationProcessHandle := noProcess, pending := [], trace := [] }

/-- Record an event together with the current state and process handle. -/
def emit (d : RunControlPrivate) (e : Ev) : RunControlPrivate :=
  { d with trace := d.trace ++ [⟨e, d.state, d.applicationProcessHandle⟩] }

/-- Embeds `QTimer::singleShot(0, runner, [this]() ...)`: queue a call for a later turn of the
event loop. -/
def singleShot (d : RunControlPrivate) (c : Cmd) : RunControlPrivate :=
  { d with pending := d.pending ++ [c] }

/-- The events of a trace without the snapshots. -/
def events (d : RunControlPrivate) : List Ev := d.trace.map Obs.ev

/-- Embeds `const bool debugStates = false;` (line 63). -/
def debugStates : Bool := false

/-- Embeds `RunControl::appendMessage` (lines 1200-1203). -/
def appendMessage (d : RunControlPrivate) (msg : String) (format : OutputFormat) :
    RunControlPrivate :=
  emit d (.appendMessage msg format)

/-- Embeds `RunControlPrivate::debugMessage` (lines 1146-1150). -/
def debugMessage (d : RunControlPrivate) (msg : String) : RunControlPrivate :=
  if debugStates then appendMessage d (msg ++ "\n") .DebugFormat else d

/-- Embeds `RunControlPrivate::stateName` (lines 1102-1118). -/
def stateName : State → String
  | .Initialized => "State::Initialized"
  | .TargetPreparing => "State::TargetPreparing"
  | .ToolPreparing => "State::ToolPreparing"
  | .TargetStarting => "State::TargetStarting"
  | .ToolStarting => "State::ToolStarting"
  | .Running => "State::Running"
  | .ToolStopping => "State::ToolStopping"
  | .TargetStopping => "State::TargetStopping"
  | .Stopped => "State::Stopped"

/-- Embeds `RunControlPrivate::isAllowedTransition` (lines 1069-1094). -/
def isAllowedTransition (src dst : State) : Bool :=
  match src with
  | .Initialized => dst == .TargetPreparing
  | .TargetPreparing => dst == .ToolPreparing
  | .ToolPreparing => dst == .TargetStarting
  | .TargetStarting => dst == .ToolStarting
  | .ToolStarting => dst == .Running
  | .Running => dst == .ToolStopping || dst == .Stopped
  | .ToolStopping => dst == .TargetStopping
  | .TargetStopping => dst == .Stopped
  | .Stopped => false

/-- Embeds `RunControlPrivate::checkState` (lines 1096-1100): a mismatch is printed, nothing
else happens. -/
def checkState (d : RunControlPrivate) (expectedState : State) : RunControlPrivate :=
  if d.state ≠ expectedState then emit d (.qDebugUnexpectedState expectedState d.state) else d

/-- Embeds `RunControlPrivate::showError` (lines 864-868). -/
def showError (d : RunControlPrivate) (msg : String) : RunControlPrivate :=
  if msg ≠ "" then appendMessage d msg .ErrorMessageFormat else d

/-- Embeds `RunControl::setApplicationProcessHandle` (lines 984-990). -/
def setApplicationProcessHandle (d : RunControlPrivate) (handle : ProcessHandle) :
    RunControlPrivate :=
  if d.applicationProcessHandle ≠ handle then
    emit { d with applicationProcessHandle := handle } .applicationProcessHandleChanged
  else d

/-- Embeds `RunControlPrivate::setState` (lines 1120-1144).  The runner hooks `onFinished` are
recorded as events; the virtual hooks are taken not to call back into the run control. -/
def setState (d : RunControlPrivate) (newState : State) : RunControlPrivate :=
  let d := if !isAllowedTransition d.state newState then
      emit d (.qDebugInvalidTransition d.state newState) else d
  let d := emit { d with state := newState } (.stateAssigned d.state newState)
  let d := debugMessage d ("Entering state " ++ stateName newState)
  match d.state with
  | .Running => emit d .started
  | .Stopped =>
    let d := setApplicationProcessHandle d noProcess
    let d := emit d .toolOnFinished
    let d := emit d .targetOnFinished
    let d := { d with state := .Initialized }
    emit d .finished
  | _ => d

/-- Embeds `RunControlPrivate::initiateStart` (lines 670-676). -/
def initiateStart (d : RunControlPrivate) : RunControlPrivate :=
  let d := checkState d .Initialized
  let d := setState d .TargetPreparing
  let d := debugMessage d "Queue: Prepare target runner"
  singleShot d .targetPrepare

/-- Embeds `RunControlPrivate::onTargetPrepared` (lines 678-684). -/
def onTargetPrepared (d : RunControlPrivate) : RunControlPrivate :=
  let d := checkState d .TargetPreparing
  let d := setState d .ToolPreparing
  let d := debugMessage d "Queue: Prepare tool runner"
  singleShot d .toolPrepare

/-- Embeds `RunControlPrivate::onTargetPrepareFailed` (lines 686-692). -/
def onTargetPrepareFailed (d : RunControlPrivate) (msg : String) : RunControlPrivate :=
  let d := checkState d .TargetPreparing
  let d := emit d .toolOnTargetFailure
  let d := showError d msg
  setState d .Stopped

/-- Embeds `RunControlPrivate::onToolPrepared` (lines 694-700). -/
def onToolPrepared (d : RunControlPrivate) : RunControlPrivate :=
  let d := checkState d .ToolPreparing
  let d := setState d .TargetStarting
  let d := debugMessage d "Queue: Start target runner"
  singleShot d .targetStart

/-- Embeds `RunControlPrivate::onToolPrepareFailed` (lines 702-708). -/
def onToolPrepareFailed (d : RunControlPrivate) (msg : String) : RunControlPrivate :=
  let d := checkState d .ToolPreparing
  let d := emit d .targetOnToolFailure
  let d := showError d msg
  setState d .Stopped

/-- Embeds `RunControlPrivate::onTargetStarted` (lines 710-716). -/
def onTargetStarted (d : RunControlPrivate) : RunControlPrivate :=
  let d := checkState d .TargetStarting
  let d := setState d .ToolStarting
  let d := debugMessage d "Queue: Start tool runner"
  singleShot d .toolStart

/-- Embeds `RunControlPrivate::onTargetStartFailed` (lines 718-724). -/
def onTargetStartFailed (d : RunControlPrivate) (msg : String) : RunControlPrivate :=
  let d := checkState d .TargetStarting
  let d := emit d .toolOnTargetFailure
  let d := showError d msg
  setState d .Stopped

/-- Embeds `RunControlPrivate::onToolStarted` (lines 726-730). -/
def onToolStarted (d : RunControlPrivate) : RunControlPrivate :=
  let d := checkState d .ToolStarting
  setState d .Running

/-- Embeds `RunControlPrivate::onToolStartFailed` (lines 732-738). -/
def onToolStartFailed (d : RunControlPrivate) (msg : String) : RunControlPrivate :=
  let d := checkState d .ToolStarting
  let d := emit d .targetOnToolFailure
  let d := showError d msg
  setState d .Stopped

/-- Embeds `RunControlPrivate::initiateStop` (lines 740-746). -/
def initiateStop (d : RunControlPrivate) : RunControlPrivate :=
  let d := checkState d .Running
  let d := setState d .ToolStopping
  let d := debugMessage d "Queue: Stop tool runner"
  singleShot d .toolStop

/-- Embeds `RunControlPrivate::onToolStopped` (lines 748-756). -/
def onToolStopped (d : RunControlPrivate) : RunControlPrivate :=
  let d := emit d .toolOnStop
  let d := debugMessage d "Tool stopped"
  let d := checkState d .ToolStopping
  let d := setState d .TargetStopping
  let d := debugMessage d "Queue: Stop target runner"
  singleShot d .targetStop

/-- Embeds `RunControlPrivate::onToolStopFailed` (lines 758-765). -/
def onToolStopFailed (d : RunControlPrivate) (msg : String) : RunControlPrivate :=
  let d := checkState d .ToolStopping
  let d := emit d .targetOnToolFailure
  let d := debugMessage d "Tool stop failed"
  let d := showError d msg
  setState d .Stopped

/-- Embeds `RunControlPrivate::onTargetStopped` (lines 767-773). -/
def onTargetStopped (d : RunControlPrivate) : RunControlPrivate :=
  let d := emit d .targetOnStop
  let d := debugMessage d "Target stopped"
  let d := checkState d .TargetStopping
  setState d .Stopped

/-- Embeds `RunControlPrivate::onTargetStopFailed` (lines 775-782). -/
def onTargetStopFailed (d : RunControlPrivate) (msg : String) : RunControlPrivate :=
  let d := debugMessage d "Target stop failed"
  let d := checkState d .TargetStopping
  let d := emit d .toolOnTargetFailure
  let d := showError d msg
  setState d .Stopped

/-- The text of `RunControl::tr("Unexpected state: %1").arg(int(state))`. -/
def unexpectedStateText (s : State) : String :=
  "Unexpected state: " ++ toString s.toInt

/-- Embeds `RunControlPrivate::onTargetFailed` (lines 784-798). -/
def onTargetFailed (d : RunControlPrivate) (msg : String) : RunControlPrivate :=
  let d := debugMessage d "Target operation failed"
  if d.state = .TargetPreparing then onTargetPrepareFailed d msg
  else if d.state = .TargetStarting then onTargetStartFailed d msg
  else if d.state = .TargetStopping then onTargetStopFailed d msg
  else
    let d := showError d msg
    let d := showError d (unexpectedStateText d.state)
    setState d .Stopped

/-- Embeds `RunControlPrivate::onTargetSuccess` (lines 800-813). -/
def onTargetSuccess (d : RunControlPrivate) : RunControlPrivate :=
  let d := debugMessage d "Target operation successful"
  if d.state = .TargetPreparing then onTargetPrepared d
  else if d.state = .TargetStarting then onTargetStarted d
  else if d.state = .TargetStopping then onTargetStopped d
  else
    let d := showError d (unexpectedStateText d.state)
    setState d .Stopped

/-- Embeds `RunControlPrivate::onToolFailed` (lines 815-829).  In `ToolStopping` the source
calls `onToolStartFailed`, not `onToolStopFailed`. -/
def onToolFailed (d : RunControlPrivate) (msg : String) : RunControlPrivate :=
  let d := debugMessage d "Tool operation failed"
  if d.state = .ToolPreparing then onToolPrepareFailed d msg
  else if d.state = .ToolStarting then onToolStartFailed d msg
  else if d.state = .ToolStopping then onToolStartFailed d msg
  else
    let d := showError d msg
    let d := showError d (unexpectedStateText d.state)
    setState d .Stopped

/-- Embeds `RunControlPrivate::onToolSuccess` (lines 831-844). -/
def onToolSuccess (d : RunControlPrivate) : RunControlPrivate :=
  let d := debugMessage d "Tool operation successful"
  if d.state = .ToolPreparing then onToolPrepared d
  else if d.state = .ToolStarting then onToolStarted d
  else if d.state = .ToolStopping then onToolStopped d
  else
    let d := showError d (unexpectedStateText d.state)
    setState d .Stopped

/-- Embeds `RunControl::start` (lines 655-658). -/
def RunControl.start (d : RunControlPrivate) : RunControlPrivate :=
  initiateStart d

/-- Embeds `RunControl::stop` (lines 665-668). -/
def RunControl.stop (d : RunControlPrivate) : RunControlPrivate :=
  initiateStop d

/-- Embeds `TargetRunner::reportStopped` (lines 1355-1358). -/
def TargetRunner.reportStopped (d : RunControlPrivate) : RunControlPrivate :=
  onTargetStopped d

/-- Embeds `TargetRunner::reportSuccess` (lines 1360-1363). -/
def TargetRunner.reportSuccess (d : RunControlPrivate) : RunControlPrivate :=
  onTargetSuccess d

/-- Embeds `TargetRunner::reportFailure` (lines 1365-1368). -/
def TargetRunner.reportFailure (d : RunControlPrivate) (msg : String) : RunControlPrivate :=
  onTargetFailed d msg

/-- Embeds `ToolRunner::reportSuccess` (lines 1428-1431). -/
def ToolRunner.reportSuccess (d : RunControlPrivate) : RunControlPrivate :=
  onToolSuccess d

/-- Embeds `ToolRunner::reportFailure` (lines 1433-1436). -/
def ToolRunner.reportFailure (d : RunControlPrivate) (msg : String) : RunControlPrivate :=
  onToolFailed d msg

/-- How a runner answers a command: `reportSuccess()` or `reportFailure(msg)`. -/
inductive Outcome where
  | success
  | failure (msg : String)
  deriving DecidableEq, Repr

/-- One turn of the event loop: the oldest deferred call runs and the runner it
addresses reports the outcome `o` through `reportSuccess` / `reportFailure`.  With
nothing pending nothing happens. -/
def answer (d : RunControlPrivate) (o : Outcome) : RunControlPrivate :=
  match d.pending with
  | [] => d
  | c :: rest =>
    let d := { d with pending := rest }
    match c.isTarget, o with
    | true, .success => TargetRunner.reportSuccess d
    | true, .failure msg => TargetRunner.reportFailure d msg
    | false, .success => ToolRunner.reportSuccess d
    | false, .failure msg => ToolRunner.reportFailure d msg

/-- The calls that reach a run control from outside. -/
inductive Call where
  /-- Embeds `RunControl::start()`. -/
  | start
  /-- Embeds `RunControl::stop()`. -/
  | stop
  /-- The event loop runs the oldest deferred command and its runner reports. -/
  | answer (o : Outcome)
  /-- Embeds `TargetRunner::reportStopped()`: the process behind the runner exited. -/
  | reportStopped
  /-- Embeds `RunControl::setApplicationProcessHandle(handle)`, called by a runner. -/
  | setApplicationProcessHandle (handle : ProcessHandle)
  deriving DecidableEq, Repr

/-- The effect of one call. -/
def Call.apply (d : RunControlPrivate) : Call → RunControlPrivate
  | .start => RunControl.start d
  | .stop => RunControl.stop d
  | .answer o => ProjectExplorer.answer d o
  | .reportStopped => TargetRunner.reportStopped d
  | .setApplicationProcessHandle handle => ProjectExplorer.setApplicationProcessHandle d handle

/-- The calls of a run without a race between the process and the event loop: `start()`
comes in `Initialized`, `stop()` in `Running`, a runner report answers a dispatched
command, and a process exit comes in `Running`; the process handle may be set at any time.
A launcher can also deliver a process exit in `ToolStarting` or `ToolStopping`, as
`SimpleInput.legal` admits. -/
def Call.legal (d : RunControlPrivate) : Call → Bool
  | .start => d.state == .Initialized
  | .stop => d.state == .Running
  | .answer _ => !d.pending.isEmpty
  | .reportStopped => d.state == .Running
  | .setApplicationProcessHandle _ => true

/-- The run control after a sequence of calls. -/
def run (d : RunControlPrivate) : List Call → RunControlPrivate
  | [] => d
  | c :: cs => run (c.apply d) cs

/-- Every call of the sequence is legal at the moment it is made. -/
def legalRun (d : RunControlPrivate) : List Call → Bool
  | [] => true
  | c :: cs => c.legal d && legalRun (c.apply d) cs

/-- The values assigned to `state` by `setState`, oldest first. -/
def stateHistory (d : RunControlPrivate) : List State :=
  d.trace.filterMap fun o =>
    match o.ev with
    | .stateAssigned _ s => some s
    | _ => none

/-- The transitions `setState` was asked to make, oldest first. -/
def transitions (d : RunControlPrivate) : List (State × State) :=
  d.trace.filterMap fun o =>
    match o.ev with
    | .stateAssigned a b => some (a, b)
    | _ => none

/-- How often an event occurs in the trace. -/
def occurrences (e : Ev) (d : RunControlPrivate) : Nat := (events d).count e

/-- The allowed transition table of the specification, section 4.3. -/
def specTable : List (State × State) :=
  [(.Initialized, .TargetPreparing), (.TargetPreparing, .ToolPreparing),
   (.ToolPreparing, .TargetStarting), (.TargetStarting, .ToolStarting),
   (.ToolStarting, .Running), (.Running, .ToolStopping), (.Running, .Stopped),
   (.ToolStopping, .TargetStopping), (.TargetStopping, .Stopped)]

/-- The trace entries `showError(msg)` appends in state `s` with handle `h`. -/
def errorEntry (msg : String) (s : State) (h : ProcessHandle) : List Obs :=
  if msg ≠ "" then [⟨.appendMessage msg .ErrorMessageFormat, s, h⟩] else []

/-- The trace entries `setState(Stopped)` appends when called in state `s` with handle
`h`: the diagnostic for a transition outside the table, the assignment, the handle reset
(announced only when the handle changes), the two `onFinished` hooks, and `finished`
after the state went back to `Initialized`. -/
def stoppedTail (s : State) (h : ProcessHandle) : List Obs :=
  (if isAllowedTransition s .Stopped then [] else [⟨.qDebugInvalidTransition s .Stopped, s, h⟩])
    ++ [⟨.stateAssigned s .Stopped, .Stopped, h⟩]
    ++ (if h ≠ noProcess then [⟨.applicationProcessHandleChanged, .Stopped, noProcess⟩] else [])
    ++ [⟨.toolOnFinished, .Stopped, noProcess⟩, ⟨.targetOnFinished, .Stopped, noProcess⟩,
        ⟨.finished, .Initialized, noProcess⟩]

/-- Every `finished` entry of the trace was recorded with the default process handle. -/
def FinishedClean (d : RunControlPrivate) : Prop :=
  ∀ o ∈ d.trace, o.ev = .finished → o.handle = noProcess

/-- Bookkeeping of an observer that follows a trace cycle by cycle: outside a run cycle,
or inside one with the number of `onFinished` calls seen so far on the tool runner and on
the target runner, or `violated` once an `onFinished` or `finished` came outside a cycle
or a `finished` closed a cycle whose two counts were not both one. -/
inductive Monitor where
  | idle
  | inCycle (tool target : Nat)
  | violated
  deriving DecidableEq, Repr

/-- The observer reads one event.  A cycle opens with the assignment made by an accepted
`start()` and closes with `finished`. -/
def Monitor.step : Monitor → Ev → Monitor
  | .idle, .stateAssigned .Initialized .TargetPreparing => .inCycle 0 0
  | .idle, .toolOnFinished => .violated
  | .idle, .targetOnFinished => .violated
  | .idle, .finished => .violated
  | .inCycle a b, .toolOnFinished => .inCycle (a + 1) b
  | .inCycle a b, .targetOnFinished => .inCycle a (b + 1)
  | .inCycle a b, .finished => if a = 1 ∧ b = 1 then .idle else .violated
  | m, _ => m

/-- The observer reads a piece of trace. -/
def monitorFrom (m : Monitor) (l : List Obs) : Monitor := (l.map Obs.ev).foldl Monitor.step m

/-- The observer after the whole trace of `d`. -/
def monitor (d : RunControlPrivate) : Monitor := monitorFrom .idle d.trace

/-- The deferred command that is outstanding in each state of a legal run. -/
def expectedPending : State → List Cmd
  | .TargetPreparing => [.targetPrepare]
  | .ToolPreparing => [.toolPrepare]
  | .TargetStarting => [.targetStart]
  | .ToolStarting => [.toolStart]
  | .ToolStopping => [.toolStop]
  | .TargetStopping => [.targetStop]
  | _ => []

/-- What holds between the calls of a legal run: the state is not `Stopped`, the queue
holds exactly the command the state waits for, and the observer is outside a cycle in
`Initialized` and inside a cycle without any `onFinished` so far in every other state. -/
def LegalInv (d : RunControlPrivate) : Prop :=
  d.state ≠ .Stopped ∧ d.pending = expectedPending d.state ∧
    monitor d = if d.state = .Initialized then .idle else .inCycle 0 0

/-- The outcome of a forced stop that starts in `d` and ends in `r`: the runner hook
`notified` ran once more, the hook `other` did not run, no command was queued, `started`
was not emitted, the only state assigned was `Stopped`, `finished` was emitted once, and
the stored state is back at `Initialized`. -/
def ForcedStop (notified other : Ev) (d r : RunControlPrivate) : Prop :=
  occurrences notified r = occurrences notified d + 1 ∧
  occurrences other r = occurrences other d ∧
  r.pending = d.pending ∧
  occurrences .started r = occurrences .started d ∧
  stateHistory r = stateHistory d ++ [.Stopped] ∧
  occurrences .finished r = occurrences .finished d + 1 ∧
  r.state = .Initialized

/-- Embeds `QProcess::ExitStatus`. -/
inductive ExitStatus where
  | NormalExit
  | CrashExit
  deriving DecidableEq, Repr

/-- The Qt text services `SimpleTargetRunner` calls; they are library code outside the
repository and are taken as parameters: `QDir::toNativeSeparators` and `QString::arg`
applied to a translated template. -/
structure QtText where
  toNativeSeparators : String → String
  arg : String → String → String

/-- A sample text service for evaluating examples: `/` is the native separator, and `arg`
fills the lowest of the markers `%1` and `%2`. -/
def QtText.posix : QtText where
  toNativeSeparators := id
  arg := fun template a =>
    if (template.splitOn "%1").length > 1 then template.replace "%1" a
    else template.replace "%2" a

/-- Embeds `SimpleTargetRunner::onProcessFinished` (lines 1300-1310); `exe` is
`runControl()->runnable().as<StandardRunnable>().executable`. -/
def SimpleTargetRunner.onProcessFinished (qt : QtText) (exe : String) (d : RunControlPrivate)
    (exitCode : Int) (status : ExitStatus) : RunControlPrivate :=
  let msg :=
    if status = .CrashExit then qt.arg "%1 crashed." (qt.toNativeSeparators exe)
    else qt.arg (qt.arg "%1 exited with code %2" (qt.toNativeSeparators exe)) (toString exitCode)
  let d := appendMessage d (msg ++ "\n") .NormalMessageFormat
  TargetRunner.reportStopped d

/-- A run control brought to `Running` by `start()` and four successful stages. -/
def RunControlPrivate.running : RunControlPrivate :=
  run .init [.start, .answer .success, .answer .success, .answer .success, .answer .success]

/-- Embeds `RunControl::reportApplicationStart` (lines 1167-1172). -/
def RunControl.reportApplicationStart (d : RunControlPrivate) : RunControlPrivate :=
  let d := onToolStarted d
  emit d .started

/-- Embeds `RunControl::isRunning` (lines 1029-1032). -/
def RunControl.isRunning (d : RunControlPrivate) : Bool :=
  d.state == .Running

/-- The states in which a report of the target runner is expected. -/
def targetStages : List State := [.TargetPreparing, .TargetStarting, .TargetStopping]

/-- The states in which a report of the tool runner is expected. -/
def toolStages : List State := [.ToolPreparing, .ToolStarting, .ToolStopping]

/-- Reading a piece of trace from its start: an Error-format message comes before the
first `finished`. -/
def errorBeforeFinished : List Ev → Bool
  | [] => false
  | .appendMessage _ .ErrorMessageFormat :: _ => true
  | .finished :: _ => false
  | _ :: l => errorBeforeFinished l

/-- The events a call appended: those of `r` after the events `d` already had. -/
def appended (d r : RunControlPrivate) : List Ev := (events r).drop (events d).length

/-- A runner object is identified by a number standing for its address. -/
abbrev RunnerId := Nat

/-- The run control with the two runner fields of `RunControlPrivate`
(`QPointer<TargetRunner> targetRunner`, `QPointer<ToolRunner> toolRunner`, lines 594-595);
a null pointer is `none`.  The field `deleted` lists the runner objects destroyed by
`delete`, oldest first. -/
structure RunControlRunners where
  d : RunControlPrivate
  targetRunner : Option RunnerId
  toolRunner : Option RunnerId
  deleted : List RunnerId
  deriving DecidableEq, Repr

/-- Embeds `RunControl::setToolRunner` (lines 905-909): `delete d->toolRunner;` then
`d->toolRunner = tool;`. -/
def RunControl.setToolRunner (rc : RunControlRunners) (tool : Option RunnerId) :
    RunControlRunners :=
  let rc := { rc with deleted := rc.deleted ++ rc.toolRunner.toList }
  { rc with toolRunner := tool }

/-- Embeds `RunControl::setTargetRunner` (lines 916-920): `delete d->targetRunner;` then
`d->targetRunner = runner;`. -/
def RunControl.setTargetRunner (rc : RunControlRunners) (runner : Option RunnerId) :
    RunControlRunners :=
  let rc := { rc with deleted := rc.deleted ++ rc.targetRunner.toList }
  { rc with targetRunner := runner }

/-- The class `Runnable`: a pointer `d` to a type-erased description of what to run, or
null.  The type `α` stands for the descriptions. -/
structure Runnable (α : Type) where
  d : Option α

/-- Embeds `Runnable::canReUseOutputPane` (lines 1205-1208).  The virtual
`Concept::canReUseOutputPane` is declared outside the given sources and is the parameter
`conceptCanReUse`. -/
def Runnable.canReUseOutputPane {α : Type} (conceptCanReUse : α → Option α → Bool)
    (self other : Runnable α) : Bool :=
  match self.d with
  | some c => conceptCanReUse c other.d
  | none => other.d.isNone

/-- Embeds `RunControl::canReUseOutputPane` (lines 964-970): `runnable` is the runnable of
the run control asked, `other` and `otherRunnable` are the state and the runnable of the
run control passed in. -/
def RunControl.canReUseOutputPane {α : Type} (conceptCanReUse : α → Option α → Bool)
    (runnable : Runnable α) (other : RunControlPrivate) (otherRunnable : Runnable α) : Bool :=
  if RunControl.isRunning other then false
  else runnable.canReUseOutputPane conceptCanReUse otherRunnable

/-- The run control `d` with the trace `t` of an earlier history put in front of its own. -/
def afterHistory (t : List Obs) (d : RunControlPrivate) : RunControlPrivate :=
  { d with trace := t ++ d.trace }

/-- The last event of the trace is `finished`: a run cycle has just ended. -/
def justFinished (d : RunControlPrivate) : Bool :=
  (events d).getLast? == some .finished

/-- What holds right after a `finished`: the stored state is `Initialized` and the process
handle is the default one. -/
def RestInv (d : RunControlPrivate) : Prop :=
  justFinished d = true → d.state = .Initialized ∧ d.applicationProcessHandle = noProcess

/-- Embeds `TargetRunner::prepare` (lines 1340-1343). -/
def TargetRunner.prepare (d : RunControlPrivate) : RunControlPrivate :=
  TargetRunner.reportSuccess d

/-- Embeds `TargetRunner::start` (lines 1345-1348). -/
def TargetRunner.start (d : RunControlPrivate) : RunControlPrivate :=
  TargetRunner.reportSuccess d

/-- Embeds `TargetRunner::stop` (lines 1350-1353). -/
def TargetRunner.stop (d : RunControlPrivate) : RunControlPrivate :=
  TargetRunner.reportSuccess d

/-- Embeds `ToolRunner::prepare` (lines 1408-1411). -/
def ToolRunner.prepare (d : RunControlPrivate) : RunControlPrivate :=
  ToolRunner.reportSuccess d

/-- Embeds `ToolRunner::start` (lines 1413-1416). -/
def ToolRunner.start (d : RunControlPrivate) : RunControlPrivate :=
  ToolRunner.reportSuccess d

/-- Embeds `ToolRunner::stop` (lines 1418-1421). -/
def ToolRunner.stop (d : RunControlPrivate) : RunControlPrivate :=
  ToolRunner.reportSuccess d

/-- The signals of `ApplicationLauncher` that `SimpleTargetRunner::start` connects. -/
inductive LauncherSignal where
  | appendMessage
  | processStarted
  | processExited
  | reportError
  | remoteStderr
  | remoteStdout
  | finished
  | reportProgress
  deriving DecidableEq, Repr

/-- The calls `SimpleTargetRunner` makes on `m_launcher`: `start(r)`, `start(r, device)`
and `stop()`. -/
inductive LauncherCall where
  | start
  | startRemote
  | stop
  deriving DecidableEq, Repr

/-- Modelled from the spec: `ApplicationLauncher` is declared outside the given sources;
the spec gives its boundary as `start` followed by the asynchronous events
`processStarted` and `processExited`.  The phase says which of them can still come: none,
both, or only `processExited`. -/
inductive LauncherPhase where
  | idle
  | starting
  | running
  deriving DecidableEq, Repr

/-- What `SimpleTargetRunner` reads and never writes: the Qt text services, the device type
id of the kit (`none` for an invalid id, also when the run configuration, target or kit is
null), the constant `Constants::DESKTOP_DEVICE_TYPE`, whether the runnable is a
`StandardRunnable`, its executable, and `QFileInfo::exists`. -/
structure SimpleConfig where
  qt : QtText
  deviceTypeId : Option String
  desktopDeviceType : String
  standard : Bool
  executable : String
  fileExists : String → Bool

/-- Embeds `isSynchronousLauncher` (lines 1212-1219). -/
def isSynchronousLauncher (cfg : SimpleConfig) : Bool :=
  cfg.deviceTypeId.isNone || cfg.deviceTypeId == some cfg.desktopDeviceType

/-- A run control with a `SimpleTargetRunner` and a default `ToolRunner`: the run control,
the connections from `m_launcher` to the runner, the calls made on `m_launcher` so far,
and the phase of the launcher. -/
structure SimpleRun where
  d : RunControlPrivate
  connected : List LauncherSignal
  launcherCalls : List LauncherCall
  phase : LauncherPhase
  deriving DecidableEq, Repr

/-- The connections `SimpleTargetRunner::start` makes on a local target. -/
def localSignals : List LauncherSignal := [.appendMessage, .processStarted, .processExited]

/-- The connections `SimpleTargetRunner::start` makes on a remote target. -/
def remoteSignals : List LauncherSignal :=
  [.reportError, .remoteStderr, .remoteStdout, .finished, .reportProgress]

/-- Embeds `SimpleTargetRunner::start` (lines 1229-1285). -/
def SimpleTargetRunner.start (cfg : SimpleConfig) (s : SimpleRun) : SimpleRun :=
  let s := { s with connected := [] }
  if isSynchronousLauncher cfg then
    let s := { s with connected := localSignals }
    if !cfg.standard then s
    else if cfg.executable = "" then
      { s with d := TargetRunner.reportFailure s.d "No executable specified." }
    else if !cfg.fileExists cfg.executable then
      let msg := cfg.qt.arg "Executable %1 does not exist."
        (cfg.qt.toNativeSeparators cfg.executable)
      { s with d := TargetRunner.reportFailure s.d msg }
    else
      let msg := cfg.qt.arg "Starting %1..." (cfg.qt.toNativeSeparators cfg.executable) ++ "\n"
      let s := { s with d := appendMessage s.d msg .NormalMessageFormat }
      { s with launcherCalls := s.launcherCalls ++ [.start], phase := .starting }
  else
    let s := { s with connected := remoteSignals }
    { s with launcherCalls := s.launcherCalls ++ [.startRemote], phase := .starting }

/-- Embeds `SimpleTargetRunner::stop` (lines 1287-1290). -/
def SimpleTargetRunner.stop (s : SimpleRun) : SimpleRun :=
  { s with launcherCalls := s.launcherCalls ++ [.stop] }

/-- Embeds `SimpleTargetRunner::onProcessStarted` (lines 1292-1298); `applicationPID` is
`m_launcher.applicationPID()`.  `bringApplicationToForeground` touches no field of the
model. -/
def SimpleTargetRunner.onProcessStarted (d : RunControlPrivate)
    (applicationPID : ProcessHandle) : RunControlPrivate :=
  let d := setApplicationProcessHandle d applicationPID
  TargetRunner.reportSuccess d

/-- One turn of the event loop with a `SimpleTargetRunner` and a default `ToolRunner`: the
oldest deferred call runs on the runner it addresses (`prepare` of the simple target
runner is the inherited `TargetRunner::prepare`). -/
def SimpleRun.turn (cfg : SimpleConfig) (s : SimpleRun) : SimpleRun :=
  match s.d.pending with
  | [] => s
  | c :: rest =>
    let s := { s with d := { s.d with pending := rest } }
    match c with
    | .targetPrepare => { s with d := TargetRunner.prepare s.d }
    | .toolPrepare => { s with d := ToolRunner.prepare s.d }
    | .targetStart => SimpleTargetRunner.start cfg s
    | .toolStart => { s with d := ToolRunner.start s.d }
    | .toolStop => { s with d := ToolRunner.stop s.d }
    | .targetStop => SimpleTargetRunner.stop s

/-- What happens to a run control with a simple target runner. -/
inductive SimpleInput where
  /-- Embeds `RunControl::start()`. -/
  | start
  /-- Embeds `RunControl::stop()`. -/
  | stop
  /-- The event loop runs the oldest deferred call. -/
  | turn
  /-- The launcher emits `processStarted`; `pid` is `m_launcher.applicationPID()`. -/
  | processStarted (pid : ProcessHandle)
  /-- The launcher emits `processExited(exitCode, status)`. -/
  | processExited (exitCode : Int) (status : ExitStatus)
  deriving DecidableEq, Repr

/-- The effect of one input; a launcher signal reaches the runner only when connected. -/
def SimpleInput.apply (cfg : SimpleConfig) (s : SimpleRun) : SimpleInput → SimpleRun
  | .start => { s with d := RunControl.start s.d }
  | .stop => { s with d := RunControl.stop s.d }
  | .turn => s.turn cfg
  | .processStarted pid =>
    let s := { s with phase := .running }
    if .processStarted ∈ s.connected then
      { s with d := SimpleTargetRunner.onProcessStarted s.d pid }
    else s
  | .processExited exitCode status =>
    let s := { s with phase := .idle }
    if .processExited ∈ s.connected then
      let d := SimpleTargetRunner.onProcessFinished cfg.qt cfg.executable s.d exitCode status
      { s with d := d }
    else s

/-- An input is legal when `start()` comes in `Initialized`, `stop()` in `Running`, a turn
of the event loop has a deferred call to run, `processStarted` comes while the launcher is
starting a process, and `processExited` while it is starting or running one. -/
def SimpleInput.legal (s : SimpleRun) : SimpleInput → Bool
  | .start => s.d.state == .Initialized
  | .stop => s.d.state == .Running
  | .turn => !s.d.pending.isEmpty
  | .processStarted _ => s.phase == .starting
  | .processExited _ _ => s.phase == .starting || s.phase == .running

/-- The system after a sequence of inputs. -/
def simpleRun (cfg : SimpleConfig) (s : SimpleRun) : List SimpleInput → SimpleRun
  | [] => s
  | i :: is => simpleRun cfg (i.apply cfg s) is

/-- Every input of the sequence is legal at the moment it comes. -/
def legalSimpleRun (cfg : SimpleConfig) (s : SimpleRun) : List SimpleInput → Bool
  | [] => true
  | i :: is => i.legal s && legalSimpleRun cfg (i.apply cfg s) is

/-- A freshly constructed run control with a simple target runner. -/
def SimpleRun.init : SimpleRun :=
  { d := .init, connected := [], launcherCalls := [], phase := .idle }

/-- A local target with an executable that exists. -/
def SimpleConfig.localApp : SimpleConfig :=
  { qt := QtText.posix, deviceTypeId := none, desktopDeviceType := "Desktop",
    standard := true, executable := "/bin/true", fileExists := fun _ => true }

/-- A local target with an empty executable path. -/
def SimpleConfig.noExecutable : SimpleConfig :=
  { qt := QtText.posix, deviceTypeId := some "Desktop", desktopDeviceType := "Desktop",
    standard := true, executable := "", fileExists := fun _ => false }

/-- The states in which a process handle other than the default one is met. -/
def liveStates : List State := [.ToolStarting, .Running, .ToolStopping, .TargetStopping]

/-- The combinations of state, queue and launcher phase met along legal input sequences. -/
def simpleShape (st : State) (q : List Cmd) (ph : LauncherPhase) : Bool :=
  match st, ph with
  | .Initialized, .idle => decide (q.length ≤ 1) && !q.contains .targetStart
  | .TargetPreparing, .idle =>
    q == [.targetPrepare] ||
      (q.length == 2 && q.head? != some .targetStart && q.tail == [.targetPrepare])
  | .ToolPreparing, .idle => q == [.toolPrepare] || q == [.targetPrepare, .toolPrepare]
  | .TargetStarting, .idle => q == [.targetStart] || q == []
  | .TargetStarting, .starting => q == []
  | .ToolStarting, .running => q == [.toolStart]
  | .Running, .running => q == []
  | .ToolStopping, .running => q == [.toolStop]
  | .TargetStopping, .running => q == [] || q == [.targetStop]
  | _, _ => false

/-- What holds between the inputs of a legal sequence on a local target: the shape above,
launcher signals connected while a process is starting or running, and the default process
handle outside the live states. -/
def SimpleInv (s : SimpleRun) : Prop :=
  simpleShape s.d.state s.d.pending s.phase = true ∧
  (s.phase ≠ .idle → s.connected = localSignals) ∧
  (s.d.state ∉ liveStates → s.d.applicationProcessHandle = noProcess)

/-- What the user does with the dialog of `showPromptToStopDialog`: whether the button
clicked is `QDialogButtonBox::Yes`, and whether the check box is checked at the end. -/
structure DialogAnswer where
  clickedYes : Bool
  checked : Bool
  deriving DecidableEq, Repr

/-- How `showPromptToStopDialog` sets up its `CheckableMessageBox`: title, text, the texts
put on the Yes and Cancel buttons (`none` when the standard text is kept), and whether the
"do not ask again" check box is shown. -/
structure MessageBox where
  windowTitle : String
  text : String
  yesText : Option String
  cancelText : Option String
  checkBox : Bool
  deriving DecidableEq, Repr

/-- Embeds `RunControl::showPromptToStopDialog` (lines 1039-1067).  The pointer `prompt`
is `none` when null and else holds the flag it points to; the result is the value returned
and the flag afterwards, with the message box that was shown. -/
def RunControl.showPromptToStopDialog (title text stopButtonText cancelButtonText : String)
    (prompt : Option Bool) (user : MessageBox → DialogAnswer) :
    Bool × Option Bool × MessageBox :=
  let box : MessageBox :=
    { windowTitle := title
      text := text
      yesText := if stopButtonText ≠ "" then some stopButtonText else none
      cancelText := if cancelButtonText ≠ "" then some cancelButtonText else none
      checkBox := prompt.isSome }
  let answer := user box
  let close := answer.clickedYes
  let prompt := if close && prompt.isSome && answer.checked then some false else prompt
  (close, prompt, box)

/-- What a call of `promptToStop` did: the value returned, the flag behind
`optionalPrompt` afterwards, the arguments of the calls of the custom callback, and the
dialogs shown. -/
structure PromptResult where
  result : Bool
  optionalPrompt : Option Bool
  callbackCalls : List (Option Bool)
  dialogs : List MessageBox
  deriving DecidableEq, Repr

/-- Embeds `RunControl::promptToStop` (lines 997-1012).  The field `d->promptToStop` is
the parameter `promptToStop` (`none` for an empty `std::function`); a callback gets the
pointer and gives the value it returns and the value it leaves in the flag, which counts
only when the pointer is not null. -/
def RunControl.promptToStop (qt : QtText) (displayName : String) (d : RunControlPrivate)
    (promptToStop : Option (Option Bool → Bool × Bool)) (user : MessageBox → DialogAnswer)
    (optionalPrompt : Option Bool) : PromptResult :=
  if !RunControl.isRunning d then ⟨true, optionalPrompt, [], []⟩
  else if optionalPrompt = some false then ⟨true, optionalPrompt, [], []⟩
  else
    match promptToStop with
    | some callback =>
      let r := callback optionalPrompt
      ⟨r.1, optionalPrompt.map fun _ => r.2, [optionalPrompt], []⟩
    | none =>
      let msg := qt.arg
        ("<html><head/><body><center><i>%1</i> is still running.<center/>" ++
          "<center>Force it to quit?</center></body></html>") displayName
      let r := RunControl.showPromptToStopDialog "Application Still Running" msg
        "Force &Quit" "&Keep Running" optionalPrompt user
      ⟨r.1, r.2.1, [], [r.2.2]⟩

/-- One turn of the event loop with the default `TargetRunner` and `ToolRunner` that the
constructor `RunControl::RunControl` installs (lines 615-619): the oldest deferred call
runs on the runner it addresses.  The second component lists the commands dispatched so
far, oldest first. -/
def defaultTurn (x : RunControlPrivate × List Cmd) : RunControlPrivate × List Cmd :=
  match x.1.pending with
  | [] => x
  | c :: rest =>
    let d := { x.1 with pending := rest }
    let d :=
      match c with
      | .targetPrepare => TargetRunner.prepare d
      | .toolPrepare => ToolRunner.prepare d
      | .targetStart => TargetRunner.start d
      | .toolStart => ToolRunner.start d
      | .toolStop => ToolRunner.stop d
      | .targetStop => TargetRunner.stop d
    (d, x.2 ++ [c])

/-- Embeds `RunControlPrivate::handleFailure` (lines 847-862): every case of the switch
calls `setState(State::Stopped)`. -/
def handleFailure (d : RunControlPrivate) : RunControlPrivate :=
  match d.state with
  | .Initialized | .TargetPreparing | .ToolPreparing | .TargetStarting | .ToolStarting
  | .Running | .ToolStopping | .TargetStopping | .Stopped => setState d .Stopped

/-- Embeds `RunControl::reportApplicationStop` (lines 1174-1183). -/
def RunControl.reportApplicationStop (d : RunControlPrivate) : RunControlPrivate :=
  if d.state = .Stopped then d else onTargetStopped d

/-- A run control together with the commands the event loop has handed to a runner and
that runner has not answered yet, oldest first. -/
structure Flight where
  d : RunControlPrivate
  inFlight : List Cmd
  deriving DecidableEq, Repr

/-- The calls of a run in which dispatching a command and the report that answers it are
separate steps. -/
inductive FlightCall where
  /-- Embeds `RunControl::start()`. -/
  | start
  /-- Embeds `RunControl::stop()`. -/
  | stop
  /-- The event loop runs the oldest deferred call: the command reaches its runner. -/
  | dispatch
  /-- The runner that got the oldest unanswered command reports its outcome. -/
  | report (o : Outcome)
  deriving DecidableEq, Repr

/-- The effect of one call. -/
def FlightCall.apply (f : Flight) : FlightCall → Flight
  | .start => { f with d := RunControl.start f.d }
  | .stop => { f with d := RunControl.stop f.d }
  | .dispatch =>
    match f.d.pending with
    | [] => f
    | c :: rest => { d := { f.d with pending := rest }, inFlight := f.inFlight ++ [c] }
  | .report o =>
    match f.inFlight with
    | [] => f
    | c :: rest =>
      let d :=
        match c.isTarget, o with
        | true, .success => TargetRunner.reportSuccess f.d
        | true, .failure msg => TargetRunner.reportFailure f.d msg
        | false, .success => ToolRunner.reportSuccess f.d
        | false, .failure msg => ToolRunner.reportFailure f.d msg
      { d := d, inFlight := rest }

/-- A call is legal when `start()` comes in `Initialized`, `stop()` in `Running`, the event
loop has a deferred call to run, and a report answers a command that reached its runner. -/
def FlightCall.legal (f : Flight) : FlightCall → Bool
  | .start => f.d.state == .Initialized
  | .stop => f.d.state == .Running
  | .dispatch => !f.d.pending.isEmpty
  | .report _ => !f.inFlight.isEmpty

/-- The run control after a sequence of calls. -/
def flightRun (f : Flight) : List FlightCall → Flight
  | [] => f
  | c :: cs => flightRun (c.apply f) cs

/-- Every call of the sequence is legal at the moment it is made. -/
def legalFlightRun (f : Flight) : List FlightCall → Bool
  | [] => true
  | c :: cs => c.legal f && legalFlightRun (c.apply f) cs

/-- A freshly constructed run control, no command handed out. -/
def Flight.init : Flight := { d := .init, inFlight := [] }

/-- The commands that are outstanding: handed to a runner and unanswered, or still in the
queue of the event loop. -/
def Flight.outstanding (f : Flight) : List Cmd := f.inFlight ++ f.d.pending

/-- What holds between the calls of a legal run: the state is not `Stopped` and the
outstanding commands are exactly the one the state waits for, or none. -/
def FlightInv (f : Flight) : Prop :=
  f.d.state ≠ .Stopped ∧ f.outstanding = expectedPending f.d.state

/-- The slot `SimpleTargetRunner::start` connects to `ApplicationLauncher::finished` on a
remote target (lines 1272-1276): `m_launcher.disconnect(this); reportSuccess();`. -/
def SimpleTargetRunner.onLauncherFinished (s : SimpleRun) : SimpleRun :=
  let s := { s with connected := [] }
  { s with d := TargetRunner.reportSuccess s.d }

/-- A remote target: the device type of the kit is not the desktop type. -/
def SimpleConfig.remoteApp : SimpleConfig :=
  { qt := QtText.posix, deviceTypeId := some "GenericLinuxOsType",
    desktopDeviceType := "Desktop", standard := true, executable := "/usr/bin/app",
    fileExists := fun _ => false }

/-- A local target with an executable path that names no file. -/
def SimpleConfig.missingFile : SimpleConfig :=
  { qt := QtText.posix, deviceTypeId := none, desktopDeviceType := "Desktop",
    standard := true, executable := "/no/such/app", fileExists := fun _ => false }

/-- The operations on a run control that the orchestrator offers to callers and runners. -/
inductive Op where
  /-- Embeds `RunControl::start()`. -/
  | start
  /-- Embeds `RunControl::stop()`. -/
  | stop
  /-- Embeds `TargetRunner::reportSuccess()`. -/
  | targetSuccess
  /-- Embeds `TargetRunner::reportFailure(msg)`. -/
  | targetFailure (msg : String)
  /-- Embeds `ToolRunner::reportSuccess()`. -/
  | toolSuccess
  /-- Embeds `ToolRunner::reportFailure(msg)`. -/
  | toolFailure (msg : String)
  /-- Embeds `TargetRunner::reportStopped()`. -/
  | targetStopped
  /-- Embeds `RunControl::reportApplicationStart()`. -/
  | reportApplicationStart
  /-- Embeds `RunControl::reportApplicationStop()`. -/
  | reportApplicationStop
  /-- Embeds `RunControlPrivate::handleFailure()`. -/
  | handleFailure
  /-- Embeds `RunControl::setApplicationProcessHandle(handle)`. -/
  | setApplicationProcessHandle (handle : ProcessHandle)
  deriving DecidableEq, Repr

/-- The effect of one operation. -/
def Op.apply (d : RunControlPrivate) : Op → RunControlPrivate
  | .start => RunControl.start d
  | .stop => RunControl.stop d
  | .targetSuccess => TargetRunner.reportSuccess d
  | .targetFailure msg => TargetRunner.reportFailure d msg
  | .toolSuccess => ToolRunner.reportSuccess d
  | .toolFailure msg => ToolRunner.reportFailure d msg
  | .targetStopped => TargetRunner.reportStopped d
  | .reportApplicationStart => RunControl.reportApplicationStart d
  | .reportApplicationStop => RunControl.reportApplicationStop d
  | .handleFailure => ProjectExplorer.handleFailure d
  | .setApplicationProcessHandle handle => ProjectExplorer.setApplicationProcessHandle d handle

/-- The events that are not debug logging: neither a `qDebug()` line nor a message in
Debug format. -/
def isObservable : Ev → Bool
  | .qDebugUnexpectedState _ _ => false
  | .qDebugInvalidTransition _ _ => false
  | .appendMessage _ .DebugFormat => false
  | _ => true

/-- The trace without debug logging. -/
def observable (d : RunControlPrivate) : List Obs := d.trace.filter fun o => isObservable o.ev

/-- The part of `QVariant` that `IRunConfigurationAspect` uses; the class belongs to the Qt
library and is taken as a parameter: the variant made from a `bool`, `QVariant::toBool`,
and the fact that `toBool` gives back the `bool` a variant was made from. -/
structure QVariantBool (V : Type) where
  ofBool : Bool → V
  toBool : V → Bool
  toBool_ofBool : ∀ b : Bool, toBool (ofBool b) = b

/-- A `QVariantMap`: at most one value under each key. -/
abbrev QVariantMap (V : Type) := String → Option V

/-- Embeds `QMap::insert`: the value under `key` is set or replaced. -/
def QVariantMap.insert {V : Type} (map : QVariantMap V) (key : String) (value : V) :
    QVariantMap V :=
  fun k => if k = key then some value else map k

/-- Embeds `QMap::value(key, defaultValue)`. -/
def QVariantMap.value {V : Type} (map : QVariantMap V) (key : String) (defaultValue : V) : V :=
  (map key).getD defaultValue

/-- The virtual `ISettingsAspect::toMap` and `ISettingsAspect::fromMap` of the settings
objects, of type `S`; their overrides are outside the given sources. -/
structure SettingsOps (S V : Type) where
  toMap : S → QVariantMap V → QVariantMap V
  fromMap : S → QVariantMap V → S

/-- The fields of `IRunConfigurationAspect` that persistence reads and writes; a null
settings pointer is `none`. -/
structure IRunConfigurationAspect (S : Type) where
  m_id : String
  m_useGlobalSettings : Bool
  m_projectSettings : Option S
  m_globalSettings : Option S

/-- The key `m_id.toString() + QLatin1String(".UseGlobalSettings")`. -/
def IRunConfigurationAspect.useGlobalSettingsKey {S : Type} (a : IRunConfigurationAspect S) :
    String :=
  a.m_id ++ ".UseGlobalSettings"

/-- Embeds `IRunConfigurationAspect::fromMap` (lines 127-131).  The call dereferences
`m_projectSettings` without a check; with a null pointer there is no result. -/
def IRunConfigurationAspect.fromMap {S V : Type} (qv : QVariantBool V) (ops : SettingsOps S V)
    (a : IRunConfigurationAspect S) (map : QVariantMap V) :
    Option (IRunConfigurationAspect S) :=
  match a.m_projectSettings with
  | none => none
  | some settings =>
    let a := { a with m_projectSettings := some (ops.fromMap settings map) }
    some { a with
      m_useGlobalSettings := qv.toBool (map.value a.useGlobalSettingsKey (qv.ofBool true)) }

/-- Embeds `IRunConfigurationAspect::toMap` (lines 133-137): the map after the call, or no
result when `m_projectSettings` is null. -/
def IRunConfigurationAspect.toMap {S V : Type} (qv : QVariantBool V) (ops : SettingsOps S V)
    (a : IRunConfigurationAspect S) (map : QVariantMap V) : Option (QVariantMap V) :=
  match a.m_projectSettings with
  | none => none
  | some settings =>
    let map := ops.toMap settings map
    some (map.insert a.useGlobalSettingsKey (qv.ofBool a.m_useGlobalSettings))

/-- A process that exits right after it started, before the queued `toolRunner.start()`
ran: `start()`, three turns of the event loop (the third starts the launcher), the launcher
signals `processStarted` and then `processExited`. -/
def quickExit : List SimpleInput :=
  [.start, .turn, .turn, .turn, .processStarted 4711, .processExited 0 .NormalExit]

end ProjectExplorer

namespace ClangBackEnd

/-! ## `UsedMacro` (usedmacro.h)

The classes `FilePathId` and `Utils::SmallString` are declared in other headers; their
values and their comparison operators are parameters here. -/

/-- The two comparison operators of a field type that `UsedMacro` calls: `operator<` and
`operator==`. -/
structure Comparison (α : Type) where
  less : α → α → Bool
  equal : α → α → Bool

/-- The assumption on a field type: `operator<` is a strict total order on its values,
and `operator==` holds exactly between a value and itself. -/
structure Comparison.IsStrictTotal {α : Type} (c : Comparison α) : Prop where
  irrefl : ∀ a : α, c.less a a = false
  trans : ∀ a b d : α, c.less a b = true → c.less b d = true → c.less a d = true
  total : ∀ a b : α, c.less a b = true ∨ a = b ∨ c.less b a = true
  equal_iff : ∀ a b : α, c.equal a b = true ↔ a = b

/-- The comparison operators read off a decidable linear order, as a sample field type. -/
def Comparison.natural (α : Type) [LinearOrder α] : Comparison α where
  less := fun a b => decide (a < b)
  equal := fun a b => decide (a = b)

/-- Embeds `class UsedMacro`: its two data members, over the value types `M` of
`Utils::SmallString` and `F` of `FilePathId`. -/
structure UsedMacro (M F : Type) where
  macroName : M
  filePathId : F

/-- Embeds `operator<` of two `std::tuple`s of two references, as the C++ standard
library defines it: the first components decide when one is less than the other, and
otherwise the second components are compared; only `operator<` of the components is
called. -/
def tupleLess {α β : Type} (first : Comparison α) (second : Comparison β) (a b : α × β) : Bool :=
  first.less a.1 b.1 || (!first.less b.1 a.1 && second.less a.2 b.2)

/-- Embeds `operator<(const UsedMacro &, const UsedMacro &)`: the `std::tie` of
`filePathId` and `macroName` of the first, compared with that of the second. -/
def UsedMacro.operatorLess {M F : Type} (ids : Comparison F) (names : Comparison M)
    (first second : UsedMacro M F) : Bool :=
  tupleLess ids names (first.filePathId, first.macroName) (second.filePathId, second.macroName)

/-- Embeds `operator==(const UsedMacro &, const UsedMacro &)`. -/
def UsedMacro.operatorEqual {M F : Type} (ids : Comparison F) (names : Comparison M)
    (first second : UsedMacro M F) : Bool :=
  ids.equal first.filePathId second.filePathId && names.equal first.macroName second.macroName

/-- Embeds `operator!=(const UsedMacro &, const UsedMacro &)`. -/
def UsedMacro.operatorNotEqual {M F : Type} (ids : Comparison F) (names : Comparison M)
    (first second : UsedMacro M F) : Bool :=
  !UsedMacro.operatorEqual ids names first second

end ClangBackEnd

namespace ProjectExplorer

/-! ## Theorems -/

theorem State.mem_all (s : State) : s ∈ State.all := by
  cases s <;> decide

/-! ### Normal forms of the handlers -/

theorem setState_Stopped_eq (s : State) (h : ProcessHandle) (q : List Cmd) (t : List Obs) :
    setState ⟨s, h, q, t⟩ .Stopped = ⟨.Initialized, noProcess, q, t ++ stoppedTail s h⟩ := by
  by_cases ha : isAllowedTransition s .Stopped = true <;> by_cases hh : h = noProcess <;>
    simp [setState, setApplicationProcessHandle, debugMessage, debugStates, emit, stoppedTail,
      ha, hh]

theorem showError_eq (s : State) (h : ProcessHandle) (q : List Cmd) (t : List Obs)
    (msg : String) : showError ⟨s, h, q, t⟩ msg = ⟨s, h, q, t ++ errorEntry msg s h⟩ := by
  by_cases hm : msg = "" <;> simp [showError, appendMessage, emit, errorEntry, hm]

theorem onTargetSuccess_TargetPreparing (h : ProcessHandle) (q : List Cmd) (t : List Obs) :
    onTargetSuccess ⟨.TargetPreparing, h, q, t⟩ =
      ⟨.ToolPreparing, h, q ++ [.toolPrepare],
        t ++ [⟨.stateAssigned .TargetPreparing .ToolPreparing, .ToolPreparing, h⟩]⟩ := rfl

theorem onToolSuccess_ToolPreparing (h : ProcessHandle) (q : List Cmd) (t : List Obs) :
    onToolSuccess ⟨.ToolPreparing, h, q, t⟩ =
      ⟨.TargetStarting, h, q ++ [.targetStart],
        t ++ [⟨.stateAssigned .ToolPreparing .TargetStarting, .TargetStarting, h⟩]⟩ := rfl

theorem onTargetSuccess_TargetStarting (h : ProcessHandle) (q : List Cmd) (t : List Obs) :
    onTargetSuccess ⟨.TargetStarting, h, q, t⟩ =
      ⟨.ToolStarting, h, q ++ [.toolStart],
        t ++ [⟨.stateAssigned .TargetStarting .ToolStarting, .ToolStarting, h⟩]⟩ := rfl

theorem onToolSuccess_ToolStarting (h : ProcessHandle) (q : List Cmd) (t : List Obs) :
    onToolSuccess ⟨.ToolStarting, h, q, t⟩ =
      ⟨.Running, h, q,
        t ++ [⟨.stateAssigned .ToolStarting .Running, .Running, h⟩,
              ⟨.started, .Running, h⟩]⟩ := by
  simp [onToolSuccess, onToolStarted, setState, checkState, debugMessage, debugStates, emit,
    isAllowedTransition]

theorem onToolSuccess_ToolStopping (h : ProcessHandle) (q : List Cmd) (t : List Obs) :
    onToolSuccess ⟨.ToolStopping, h, q, t⟩ =
      ⟨.TargetStopping, h, q ++ [.targetStop],
        t ++ [⟨.toolOnStop, .ToolStopping, h⟩,
              ⟨.stateAssigned .ToolStopping .TargetStopping, .TargetStopping, h⟩]⟩ := by
  simp [onToolSuccess, onToolStopped, checkState, debugMessage, debugStates, emit, singleShot,
    setState, isAllowedTransition]

theorem onTargetStopped_eq (s : State) (h : ProcessHandle) (q : List Cmd) (t : List Obs) :
    onTargetStopped ⟨s, h, q, t⟩ =
      ⟨.Initialized, noProcess, q,
        t ++ [⟨.targetOnStop, s, h⟩]
          ++ (if s ≠ .TargetStopping then [⟨.qDebugUnexpectedState .TargetStopping s, s, h⟩]
              else [])
          ++ stoppedTail s h⟩ := by
  by_cases hs : s = .TargetStopping <;>
    simp [onTargetStopped, checkState, debugMessage, debugStates, emit, setState_Stopped_eq, hs]

theorem onTargetSuccess_TargetStopping (h : ProcessHandle) (q : List Cmd) (t : List Obs) :
    onTargetSuccess ⟨.TargetStopping, h, q, t⟩ =
      ⟨.Initialized, noProcess, q,
        t ++ [⟨.targetOnStop, .TargetStopping, h⟩] ++ stoppedTail .TargetStopping h⟩ := by
  simp [onTargetSuccess, debugMessage, debugStates, onTargetStopped_eq]

theorem onTargetFailed_stage (s : State) (h : ProcessHandle) (q : List Cmd) (t : List Obs)
    (msg : String) (hs : s ∈ [State.TargetPreparing, .TargetStarting, .TargetStopping]) :
    onTargetFailed ⟨s, h, q, t⟩ msg =
      ⟨.Initialized, noProcess, q,
        t ++ [⟨.toolOnTargetFailure, s, h⟩] ++ errorEntry msg s h ++ stoppedTail s h⟩ := by
  simp only [List.mem_cons, List.mem_singleton, List.not_mem_nil, or_false] at hs
  rcases hs with rfl | rfl | rfl <;>
    simp [onTargetFailed, onTargetPrepareFailed, onTargetStartFailed, onTargetStopFailed,
      checkState, debugMessage, debugStates, emit, showError_eq, setState_Stopped_eq]

theorem onToolFailed_stage (s : State) (h : ProcessHandle) (q : List Cmd) (t : List Obs)
    (msg : String) (hs : s ∈ [State.ToolPreparing, .ToolStarting, .ToolStopping]) :
    onToolFailed ⟨s, h, q, t⟩ msg =
      ⟨.Initialized, noProcess, q,
        t ++ (if s = .ToolStopping then [⟨.qDebugUnexpectedState .ToolStarting s, s, h⟩] else [])
          ++ [⟨.targetOnToolFailure, s, h⟩] ++ errorEntry msg s h ++ stoppedTail s h⟩ := by
  simp only [List.mem_cons, List.mem_singleton, List.not_mem_nil, or_false] at hs
  rcases hs with rfl | rfl | rfl <;>
    simp [onToolFailed, onToolPrepareFailed, onToolStartFailed,
      checkState, debugMessage, debugStates, emit, showError_eq, setState_Stopped_eq]

theorem initiateStart_eq (s : State) (h : ProcessHandle) (q : List Cmd) (t : List Obs) :
    initiateStart ⟨s, h, q, t⟩ =
      ⟨.TargetPreparing, h, q ++ [.targetPrepare],
        t ++ (if s ≠ .Initialized then
                [⟨.qDebugUnexpectedState .Initialized s, s, h⟩,
                 ⟨.qDebugInvalidTransition s .TargetPreparing, s, h⟩]
              else [])
          ++ [⟨.stateAssigned s .TargetPreparing, .TargetPreparing, h⟩]⟩ := by
  cases s <;>
    simp [initiateStart, checkState, debugMessage, debugStates, emit, singleShot, setState,
      isAllowedTransition]

theorem initiateStop_eq (s : State) (h : ProcessHandle) (q : List Cmd) (t : List Obs) :
    initiateStop ⟨s, h, q, t⟩ =
      ⟨.ToolStopping, h, q ++ [.toolStop],
        t ++ (if s ≠ .Running then
                [⟨.qDebugUnexpectedState .Running s, s, h⟩,
                 ⟨.qDebugInvalidTransition s .ToolStopping, s, h⟩]
              else [])
          ++ [⟨.stateAssigned s .ToolStopping, .ToolStopping, h⟩]⟩ := by
  cases s <;>
    simp [initiateStop, checkState, debugMessage, debugStates, emit, singleShot, setState,
      isAllowedTransition]

/-! ### The observer along a trace -/

theorem monitorFrom_nil (m : Monitor) : monitorFrom m [] = m := rfl

theorem monitorFrom_cons (m : Monitor) (o : Obs) (l : List Obs) :
    monitorFrom m (o :: l) = monitorFrom (m.step o.ev) l := rfl

theorem monitorFrom_append (m : Monitor) (l₁ l₂ : List Obs) :
    monitorFrom m (l₁ ++ l₂) = monitorFrom (monitorFrom m l₁) l₂ := by
  simp [monitorFrom, List.foldl_append]

theorem monitorFrom_errorEntry (m : Monitor) (msg : String) (s : State) (h : ProcessHandle) :
    monitorFrom m (errorEntry msg s h) = m := by
  by_cases hm : msg = "" <;> cases m <;> simp [monitorFrom, errorEntry, hm, Monitor.step]

theorem monitorFrom_stoppedTail (s : State) (h : ProcessHandle) :
    monitorFrom (.inCycle 0 0) (stoppedTail s h) = .idle := by
  by_cases ha : isAllowedTransition s .Stopped = true <;> by_cases hh : h = noProcess <;>
    simp [monitorFrom, stoppedTail, ha, hh, Monitor.step]

theorem LegalInv_init : LegalInv .init := by
  simp [LegalInv, RunControlPrivate.init, expectedPending, monitor, monitorFrom]

theorem LegalInv_apply (d : RunControlPrivate) (c : Call) (hd : LegalInv d)
    (hc : c.legal d = true) : LegalInv (c.apply d) := by
  obtain ⟨s, h, q, t⟩ := d
  obtain ⟨h1, h2, h3⟩ := hd
  simp only at h1 h2 h3
  subst h2
  simp only [monitor] at h3
  cases c with
  | start =>
    have hs : s = .Initialized := by simpa [Call.legal] using hc
    subst hs
    simp at h3
    simp [LegalInv, Call.apply, RunControl.start, initiateStart_eq, expectedPending, monitor,
      monitorFrom_append, h3, monitorFrom_nil, monitorFrom_cons, Monitor.step]
  | stop =>
    have hs : s = .Running := by simpa [Call.legal] using hc
    subst hs
    simp at h3
    simp [LegalInv, Call.apply, RunControl.stop, initiateStop_eq, expectedPending, monitor,
      monitorFrom_append, h3, monitorFrom_nil, monitorFrom_cons, Monitor.step]
  | reportStopped =>
    have hs : s = .Running := by simpa [Call.legal] using hc
    subst hs
    simp at h3
    simp [LegalInv, Call.apply, TargetRunner.reportStopped, onTargetStopped_eq, expectedPending,
      monitor, monitorFrom_append, h3, monitorFrom_nil, monitorFrom_cons, Monitor.step,
      monitorFrom_stoppedTail]
  | setApplicationProcessHandle h' =>
    by_cases hh : h = h' <;> by_cases hs : s = .Initialized <;>
      simp [hs] at h3 <;>
      simp [LegalInv, Call.apply, setApplicationProcessHandle, emit, hh, hs, h1, monitor,
        monitorFrom_append, h3, monitorFrom_nil, monitorFrom_cons, Monitor.step]
  | answer o =>
    cases s <;> simp [Call.legal, expectedPending] at hc h1 h3 <;>
      cases o <;>
      simp [LegalInv, Call.apply, answer, Cmd.isTarget, expectedPending,
        TargetRunner.reportSuccess, TargetRunner.reportFailure, ToolRunner.reportSuccess,
        ToolRunner.reportFailure, onTargetFailed_stage, onToolFailed_stage,
        onTargetSuccess_TargetPreparing, onToolSuccess_ToolPreparing,
        onTargetSuccess_TargetStarting, onToolSuccess_ToolStarting,
        onTargetSuccess_TargetStopping, onToolSuccess_ToolStopping,
        monitor, monitorFrom_append, h3, monitorFrom_errorEntry, monitorFrom_stoppedTail,
        monitorFrom_nil, monitorFrom_cons, Monitor.step]

theorem LegalInv_run (cs : List Call) (d : RunControlPrivate) (hd : LegalInv d)
    (hl : legalRun d cs = true) : LegalInv (run d cs) := by
  induction cs generalizing d with
  | nil => simpa [run] using hd
  | cons c cs ih =>
    simp only [legalRun, Bool.and_eq_true] at hl
    exact ih (c.apply d) (LegalInv_apply d c hd hl.1) hl.2

/-! ### Every `finished` is announced with the default handle -/

theorem FinishedClean_append (s : State) (h : ProcessHandle) (q : List Cmd) (t l : List Obs)
    (hl : ∀ o ∈ l, o.ev = .finished → o.handle = noProcess) :
    FinishedClean ⟨s, h, q, t ++ l⟩ ↔ FinishedClean ⟨s, h, q, t⟩ := by
  simp only [FinishedClean, List.mem_append]
  constructor
  · intro hc o ho
    exact hc o (Or.inl ho)
  · intro hc o ho
    rcases ho with ho | ho
    · exact hc o ho
    · exact hl o ho

theorem FinishedClean_emit (d : RunControlPrivate) (e : Ev) (he : e ≠ .finished) :
    FinishedClean (emit d e) ↔ FinishedClean d := by
  obtain ⟨s, h, q, t⟩ := d
  exact FinishedClean_append s h q t _ (by simp [he])

theorem FinishedClean_singleShot (d : RunControlPrivate) (c : Cmd) :
    FinishedClean (singleShot d c) ↔ FinishedClean d := Iff.rfl

theorem FinishedClean_debugMessage (d : RunControlPrivate) (msg : String) :
    FinishedClean (debugMessage d msg) ↔ FinishedClean d := Iff.rfl

theorem FinishedClean_checkState (d : RunControlPrivate) (s : State) :
    FinishedClean (checkState d s) ↔ FinishedClean d := by
  unfold checkState
  split
  · exact FinishedClean_emit d _ (by simp)
  · exact Iff.rfl

theorem FinishedClean_showError (d : RunControlPrivate) (msg : String) :
    FinishedClean (showError d msg) ↔ FinishedClean d := by
  unfold showError appendMessage
  split
  · exact FinishedClean_emit d _ (by simp)
  · exact Iff.rfl

theorem setState_eq_of_ne_Stopped (s₀ s : State) (h : ProcessHandle) (q : List Cmd)
    (t : List Obs) (hs : s ≠ .Stopped) :
    setState ⟨s₀, h, q, t⟩ s =
      ⟨s, h, q,
        t ++ (if isAllowedTransition s₀ s then []
              else [⟨.qDebugInvalidTransition s₀ s, s₀, h⟩])
          ++ [⟨.stateAssigned s₀ s, s, h⟩]
          ++ (if s = .Running then [⟨.started, .Running, h⟩] else [])⟩ := by
  by_cases ha : isAllowedTransition s₀ s = true <;> cases s <;>
    simp [setState, debugMessage, debugStates, emit, ha] at hs ⊢

theorem FinishedClean_setState (d : RunControlPrivate) (s : State) :
    FinishedClean (setState d s) ↔ FinishedClean d := by
  obtain ⟨s₀, h, q, t⟩ := d
  by_cases hs : s = .Stopped
  · subst hs
    rw [setState_Stopped_eq]
    refine (FinishedClean_append .Initialized noProcess q t (stoppedTail s₀ h) ?_).trans Iff.rfl
    intro o ho hf
    unfold stoppedTail at ho
    simp only [List.mem_append, List.mem_cons, List.mem_singleton, List.not_mem_nil,
      or_false] at ho
    rcases ho with ((ho | ho) | ho) | ho
    · split at ho <;> simp at ho
      subst ho; simp at hf
    · subst ho; simp at hf
    · split at ho <;> simp at ho
      subst ho; rfl
    · rcases ho with ho | ho | ho <;> subst ho <;> rfl
  · rw [setState_eq_of_ne_Stopped s₀ s h q t hs, List.append_assoc, List.append_assoc]
    apply FinishedClean_append
    intro o ho hf
    simp only [List.mem_append, List.mem_cons, List.mem_singleton, List.not_mem_nil,
      or_false] at ho
    rcases ho with ho | ho | ho
    · split at ho <;> simp at ho
      subst ho; simp at hf
    · subst ho; simp at hf
    · split at ho <;> simp at ho
      subst ho; simp at hf

theorem FinishedClean_onTargetSuccess (d : RunControlPrivate) :
    FinishedClean (onTargetSuccess d) ↔ FinishedClean d := by
  simp only [onTargetSuccess, debugMessage, debugStates, Bool.false_eq_true, if_false]
  split_ifs <;>
    simp [onTargetPrepared, onTargetStarted, onTargetStopped, FinishedClean_singleShot,
      FinishedClean_debugMessage, FinishedClean_setState, FinishedClean_checkState,
      FinishedClean_showError, FinishedClean_emit]

theorem FinishedClean_onToolSuccess (d : RunControlPrivate) :
    FinishedClean (onToolSuccess d) ↔ FinishedClean d := by
  simp only [onToolSuccess, debugMessage, debugStates, Bool.false_eq_true, if_false]
  split_ifs <;>
    simp [onToolPrepared, onToolStarted, onToolStopped, FinishedClean_singleShot,
      FinishedClean_debugMessage, FinishedClean_setState, FinishedClean_checkState,
      FinishedClean_showError, FinishedClean_emit]

theorem FinishedClean_onTargetFailed (d : RunControlPrivate) (msg : String) :
    FinishedClean (onTargetFailed d msg) ↔ FinishedClean d := by
  simp only [onTargetFailed, debugMessage, debugStates, Bool.false_eq_true, if_false]
  split_ifs <;>
    simp [onTargetPrepareFailed, onTargetStartFailed, onTargetStopFailed,
      FinishedClean_debugMessage, FinishedClean_setState, FinishedClean_checkState,
      FinishedClean_showError, FinishedClean_emit]

theorem FinishedClean_onToolFailed (d : RunControlPrivate) (msg : String) :
    FinishedClean (onToolFailed d msg) ↔ FinishedClean d := by
  simp only [onToolFailed, debugMessage, debugStates, Bool.false_eq_true, if_false]
  split_ifs <;>
    simp [onToolPrepareFailed, onToolStartFailed,
      FinishedClean_debugMessage, FinishedClean_setState, FinishedClean_checkState,
      FinishedClean_showError, FinishedClean_emit]

theorem FinishedClean_apply (d : RunControlPrivate) (c : Call) (hd : FinishedClean d) :
    FinishedClean (c.apply d) := by
  have hq : ∀ (d : RunControlPrivate) (q : List Cmd),
      FinishedClean { d with pending := q } ↔ FinishedClean d := fun _ _ => Iff.rfl
  cases c with
  | start =>
    simpa [Call.apply, RunControl.start, initiateStart, FinishedClean_singleShot,
      FinishedClean_debugMessage, FinishedClean_setState, FinishedClean_checkState] using hd
  | stop =>
    simpa [Call.apply, RunControl.stop, initiateStop, FinishedClean_singleShot,
      FinishedClean_debugMessage, FinishedClean_setState, FinishedClean_checkState] using hd
  | reportStopped =>
    simpa [Call.apply, TargetRunner.reportStopped, onTargetStopped, FinishedClean_emit,
      FinishedClean_debugMessage, FinishedClean_setState, FinishedClean_checkState] using hd
  | setApplicationProcessHandle h' =>
    simp only [Call.apply, setApplicationProcessHandle]
    split
    · exact (FinishedClean_emit _ _ (by simp)).mpr hd
    · exact hd
  | answer o =>
    obtain ⟨s, h, q, t⟩ := d
    cases q with
    | nil => simpa [Call.apply, answer] using hd
    | cons c q =>
      have hd' : FinishedClean ⟨s, h, q, t⟩ := hd
      cases o <;> cases c <;>
        simpa [Call.apply, answer, Cmd.isTarget, TargetRunner.reportSuccess,
          TargetRunner.reportFailure, ToolRunner.reportSuccess, ToolRunner.reportFailure,
          FinishedClean_onTargetSuccess, FinishedClean_onTargetFailed,
          FinishedClean_onToolSuccess, FinishedClean_onToolFailed] using hd'

theorem FinishedClean_run (cs : List Call) (d : RunControlPrivate) (hd : FinishedClean d) :
    FinishedClean (run d cs) := by
  induction cs generalizing d with
  | nil => simpa [run] using hd
  | cons c cs ih => exact ih (c.apply d) (FinishedClean_apply d c hd)

/-! ### The claims -/

/-- C1: `isAllowedTransition` is true exactly on the nine pairs of the transition table
and false on the other 72 of the 81 pairs of states (`State.all` lists every state once);
from `Stopped` no destination is allowed. -/
theorem isAllowedTransition_iff_specTable :
    (∀ src dst : State, isAllowedTransition src dst = true ↔ (src, dst) ∈ specTable) ∧
    (∀ dst : State, isAllowedTransition .Stopped dst = false) ∧
    (∀ s : State, s ∈ State.all) ∧ State.all.Nodup ∧
    (List.product State.all State.all).length = 81 ∧
    ((List.product State.all State.all).filter
      fun p => isAllowedTransition p.1 p.2).length = 9 := by
  refine ⟨?_, ?_, State.mem_all, by decide, by decide, by decide⟩
  · intro src dst
    cases src <;> cases dst <;> decide
  · intro dst
    rfl

/-- C2: the claim says that along legal call sequences every `setState` follows an edge of
the transition table.  Evaluated at the legal sequence `start()`, then a failure report
answering `targetRunner.prepare()`: `setState` assigns `Stopped` from `TargetPreparing`,
a pair `isAllowedTransition` rejects, and prints its invalid-transition diagnostic. -/
theorem setState_leaves_table_on_prepare_failure :
    legalRun .init [.start, .answer (.failure "device unreachable")] = true ∧
    transitions (run .init [.start, .answer (.failure "device unreachable")]) =
      [(.Initialized, .TargetPreparing), (.TargetPreparing, .Stopped)] ∧
    isAllowedTransition .TargetPreparing .Stopped = false ∧
    Ev.qDebugInvalidTransition .TargetPreparing .Stopped ∈
      events (run .init [.start, .answer (.failure "device unreachable")]) := by
  decide

/-- C3: success dispatch is a function of the state alone.  For every process handle,
queue and trace: a target success in `TargetPreparing` assigns `ToolPreparing` and queues
one `toolRunner.prepare()`; a tool success in `ToolPreparing` assigns `TargetStarting` and
queues one `targetRunner.start()`; a target success in `TargetStarting` assigns
`ToolStarting` and queues one `toolRunner.start()`; a tool success in `ToolStarting`
assigns `Running`, emits `started` once and queues nothing. -/
theorem success_dispatch (h : ProcessHandle) (q : List Cmd) (t : List Obs) :
    onTargetSuccess ⟨.TargetPreparing, h, q, t⟩ =
      ⟨.ToolPreparing, h, q ++ [.toolPrepare],
        t ++ [⟨.stateAssigned .TargetPreparing .ToolPreparing, .ToolPreparing, h⟩]⟩ ∧
    onToolSuccess ⟨.ToolPreparing, h, q, t⟩ =
      ⟨.TargetStarting, h, q ++ [.targetStart],
        t ++ [⟨.stateAssigned .ToolPreparing .TargetStarting, .TargetStarting, h⟩]⟩ ∧
    onTargetSuccess ⟨.TargetStarting, h, q, t⟩ =
      ⟨.ToolStarting, h, q ++ [.toolStart],
        t ++ [⟨.stateAssigned .TargetStarting .ToolStarting, .ToolStarting, h⟩]⟩ ∧
    onToolSuccess ⟨.ToolStarting, h, q, t⟩ =
      ⟨.Running, h, q,
        t ++ [⟨.stateAssigned .ToolStarting .Running, .Running, h⟩,
              ⟨.started, .Running, h⟩]⟩ :=
  ⟨onTargetSuccess_TargetPreparing h q t, onToolSuccess_ToolPreparing h q t,
    onTargetSuccess_TargetStarting h q t, onToolSuccess_ToolStarting h q t⟩

/-- C4: a failure report in a Preparing, Starting or Stopping state forces `Stopped`.  A
target failure in `TargetPreparing`, `TargetStarting` or `TargetStopping` calls
`toolRunner.onTargetFailure()` once; a tool failure in `ToolPreparing`, `ToolStarting` or
`ToolStopping` calls `targetRunner.onToolFailure()` once.  In all six cases no command is
queued, `started` is not emitted, `Stopped` is the only state assigned, and `finished` is
emitted once. -/
theorem failure_forces_Stopped (s : State) (h : ProcessHandle) (q : List Cmd) (t : List Obs)
    (msg : String) :
    (s ∈ [State.TargetPreparing, .TargetStarting, .TargetStopping] →
      ForcedStop .toolOnTargetFailure .targetOnToolFailure ⟨s, h, q, t⟩
        (onTargetFailed ⟨s, h, q, t⟩ msg)) ∧
    (s ∈ [State.ToolPreparing, .ToolStarting, .ToolStopping] →
      ForcedStop .targetOnToolFailure .toolOnTargetFailure ⟨s, h, q, t⟩
        (onToolFailed ⟨s, h, q, t⟩ msg)) := by
  constructor
  · intro hs
    rw [onTargetFailed_stage s h q t msg hs]
    simp only [List.mem_cons, List.mem_singleton, List.not_mem_nil, or_false] at hs
    rcases hs with rfl | rfl | rfl <;> by_cases hm : msg = "" <;> by_cases hh : h = noProcess <;>
      simp [ForcedStop, occurrences, events, stateHistory, errorEntry, stoppedTail,
        isAllowedTransition, hm, hh, List.filterMap_append, List.count_append]
  · intro hs
    rw [onToolFailed_stage s h q t msg hs]
    simp only [List.mem_cons, List.mem_singleton, List.not_mem_nil, or_false] at hs
    rcases hs with rfl | rfl | rfl <;> by_cases hm : msg = "" <;> by_cases hh : h = noProcess <;>
      simp [ForcedStop, occurrences, events, stateHistory, errorEntry, stoppedTail,
        isAllowedTransition, hm, hh, List.filterMap_append, List.count_append]

/-- Witness for C4: a target failure in `TargetPreparing` with a message and the default
handle, and a tool failure in `ToolStopping` with an empty message and a live handle. -/
theorem failure_forces_Stopped_witness :
    (State.TargetPreparing ∈ [State.TargetPreparing, .TargetStarting, .TargetStopping] ∧
      ForcedStop .toolOnTargetFailure .targetOnToolFailure ⟨.TargetPreparing, 0, [], []⟩
        (onTargetFailed ⟨.TargetPreparing, 0, [], []⟩ "device unreachable")) ∧
    (State.ToolStopping ∈ [State.ToolPreparing, .ToolStarting, .ToolStopping] ∧
      ForcedStop .targetOnToolFailure .toolOnTargetFailure ⟨.ToolStopping, 4711, [], []⟩
        (onToolFailed ⟨.ToolStopping, 4711, [], []⟩ "")) :=
  ⟨⟨by decide,
      (failure_forces_Stopped .TargetPreparing 0 [] [] "device unreachable").1 (by decide)⟩,
    ⟨by decide, (failure_forces_Stopped .ToolStopping 4711 [] [] "").2 (by decide)⟩⟩

/-- C5: for every prior state and process handle `setState(Stopped)` appends, in this
order: the assignment of `Stopped` (preceded by the diagnostic when the pair is outside the
table), the reset of the process handle to the default (announced when it changes),
`toolRunner.onFinished()`, `targetRunner.onFinished()`, both seen in state `Stopped` with
the default handle, and `finished`, seen in state `Initialized` with the default handle.
And after any sequence of calls, every `finished` in the trace was emitted while the
process handle was the default one. -/
theorem setState_Stopped_order :
    (∀ (s : State) (h : ProcessHandle) (q : List Cmd) (t : List Obs),
      setState ⟨s, h, q, t⟩ .Stopped =
        ⟨.Initialized, noProcess, q,
          t ++ (if isAllowedTransition s .Stopped then []
                else [⟨.qDebugInvalidTransition s .Stopped, s, h⟩])
            ++ [⟨.stateAssigned s .Stopped, .Stopped, h⟩]
            ++ (if h ≠ noProcess then
                  [⟨.applicationProcessHandleChanged, .Stopped, noProcess⟩]
                else [])
            ++ [⟨.toolOnFinished, .Stopped, noProcess⟩,
                ⟨.targetOnFinished, .Stopped, noProcess⟩,
                ⟨.finished, .Initialized, noProcess⟩]⟩) ∧
    (∀ (cs : List Call) (o : Obs), o ∈ (run .init cs).trace → o.ev = .finished →
      o.handle = noProcess) := by
  constructor
  · intro s h q t
    simp [setState_Stopped_eq, stoppedTail]
  · intro cs o ho hf
    exact FinishedClean_run cs .init (by simp [FinishedClean, RunControlPrivate.init]) o ho hf

/-- Witness for C5: a run that sets the process handle before it reaches `Running` and ends
by the process exiting; its `finished` carries the default handle. -/
theorem setState_Stopped_order_witness :
    (⟨.finished, .Initialized, noProcess⟩ : Obs) ∈
      (run .init [.start, .answer .success, .answer .success, .answer .success,
        .setApplicationProcessHandle 4711, .answer .success, .reportStopped]).trace ∧
    (⟨.applicationProcessHandleChanged, .Stopped, noProcess⟩ : Obs) ∈
      (run .init [.start, .answer .success, .answer .success, .answer .success,
        .setApplicationProcessHandle 4711, .answer .success, .reportStopped]).trace ∧
    (⟨.finished, .Initialized, noProcess⟩ : Obs).handle = noProcess :=
  ⟨by decide, by decide,
    setState_Stopped_order.2
      [.start, .answer .success, .answer .success, .answer .success,
        .setApplicationProcessHandle 4711, .answer .success, .reportStopped]
      ⟨.finished, .Initialized, noProcess⟩ (by decide) rfl⟩

/-- Run cycles without a race: along every sequence of calls on a fresh run control in
which the process exits only while the state is `Running`, each run cycle (from the
assignment made by an accepted `start()` to the next `finished`) contains exactly one
`toolRunner.onFinished()` and exactly one `targetRunner.onFinished()`, whether it ends by
a stage failure, by `stop()` or by the process exiting, and neither hook runs outside a
cycle: the observer never reaches `violated`; it is outside a cycle when the state is
`Initialized` and otherwise inside a cycle that has seen no `onFinished` yet. -/
theorem onFinished_once_per_cycle (cs : List Call) (hl : legalRun .init cs = true) :
    monitor (run .init cs) =
      if (run .init cs).state = .Initialized then .idle else .inCycle 0 0 :=
  (LegalInv_run cs .init LegalInv_init hl).2.2

/-- A run without a race: a cycle ended by a stage failure, one ended by `stop()` with a
failing target stop, one ended by the process exiting while `Running`, and a fourth cycle
left open. -/
theorem onFinished_once_per_cycle_witness :
    legalRun .init [.start, .answer .success, .answer (.failure "no tool"),
      .start, .answer .success, .answer .success, .answer .success,
      .setApplicationProcessHandle 4711, .answer .success, .stop, .answer .success,
      .answer (.failure "busy"), .start, .answer .success, .answer .success,
      .answer .success, .answer .success, .reportStopped, .start] = true ∧
    monitor (run .init [.start, .answer .success, .answer (.failure "no tool"),
      .start, .answer .success, .answer .success, .answer .success,
      .setApplicationProcessHandle 4711, .answer .success, .stop, .answer .success,
      .answer (.failure "busy"), .start, .answer .success, .answer .success,
      .answer .success, .answer .success, .reportStopped, .start]) = .inCycle 0 0 :=
  ⟨by decide, onFinished_once_per_cycle _ (by decide)⟩

/-- C7: the claim says a second `stop()` right after the first is ignored.  On a run
control that reached `Running`, one `stop()` queues one `toolRunner.stop()` and two calls
queue two, so the queue after two calls differs from the queue after one. -/
theorem stop_twice_queues_two_commands :
    RunControlPrivate.running.state = .Running ∧
    (RunControl.stop RunControlPrivate.running).pending = [.toolStop] ∧
    (RunControl.stop (RunControl.stop RunControlPrivate.running)).pending =
      [.toolStop, .toolStop] ∧
    (RunControl.stop (RunControl.stop RunControlPrivate.running)).pending ≠
      (RunControl.stop RunControlPrivate.running).pending := by
  decide

/-- C7, amended: two calls of `stop()` in immediate succession while `Running` leave the
state where one call leaves it, `ToolStopping`, but the second call is not ignored:
`checkState` only prints the mismatch, `setState` prints the invalid transition and
assigns `ToolStopping` again, and a second `toolRunner.stop()` is queued. -/
theorem stop_twice (h : ProcessHandle) (q : List Cmd) (t : List Obs) :
    RunControl.stop ⟨.Running, h, q, t⟩ =
      ⟨.ToolStopping, h, q ++ [.toolStop],
        t ++ [⟨.stateAssigned .Running .ToolStopping, .ToolStopping, h⟩]⟩ ∧
    RunControl.stop (RunControl.stop ⟨.Running, h, q, t⟩) =
      ⟨.ToolStopping, h, q ++ [.toolStop, .toolStop],
        t ++ [⟨.stateAssigned .Running .ToolStopping, .ToolStopping, h⟩,
              ⟨.qDebugUnexpectedState .Running .ToolStopping, .ToolStopping, h⟩,
              ⟨.qDebugInvalidTransition .ToolStopping .ToolStopping, .ToolStopping, h⟩,
              ⟨.stateAssigned .ToolStopping .ToolStopping, .ToolStopping, h⟩]⟩ := by
  simp [RunControl.stop, initiateStop_eq]

/-- C8: the claim says `start()` outside `Initialized` is refused.  On a run control that
reached `Running` with an empty queue, `start()` assigns `TargetPreparing` and queues
`targetRunner.prepare()`. -/
theorem start_while_Running_not_refused :
    RunControlPrivate.running.state = .Running ∧
    RunControlPrivate.running.pending = [] ∧
    (RunControl.start RunControlPrivate.running).state = .TargetPreparing ∧
    (RunControl.start RunControlPrivate.running).pending = [.targetPrepare] := by
  decide

/-- C8, amended: `start()` called in a state other than `Initialized` is not refused:
`checkState` prints the mismatch, `setState` prints the invalid transition and assigns
`TargetPreparing`, and one `targetRunner.prepare()` is queued. -/
theorem start_outside_Initialized (s : State) (h : ProcessHandle) (q : List Cmd)
    (t : List Obs) (hs : s ≠ .Initialized) :
    RunControl.start ⟨s, h, q, t⟩ =
      ⟨.TargetPreparing, h, q ++ [.targetPrepare],
        t ++ [⟨.qDebugUnexpectedState .Initialized s, s, h⟩,
              ⟨.qDebugInvalidTransition s .TargetPreparing, s, h⟩,
              ⟨.stateAssigned s .TargetPreparing, .TargetPreparing, h⟩]⟩ := by
  simp [RunControl.start, initiateStart_eq, hs]

/-- Witness for C8: `start()` in `Running`. -/
theorem start_outside_Initialized_witness :
    State.Running ≠ .Initialized ∧
    RunControl.start ⟨.Running, 4711, [], []⟩ =
      ⟨.TargetPreparing, 4711, [] ++ [.targetPrepare],
        [] ++ [⟨.qDebugUnexpectedState .Initialized .Running, .Running, 4711⟩,
               ⟨.qDebugInvalidTransition .Running .TargetPreparing, .Running, 4711⟩,
               ⟨.stateAssigned .Running .TargetPreparing, .TargetPreparing, 4711⟩]⟩ :=
  ⟨by decide, start_outside_Initialized .Running 4711 [] [] (by decide)⟩

/-- C9: the claim says the stop sequence passes through `TargetStopping` also when the tool
stop reports failure.  After `stop()` on a run control that reached `Running`, a tool
failure report leads from `ToolStopping` straight to `Stopped`: `TargetStopping` is never
assigned and `targetRunner.stop()` is never queued. -/
theorem tool_stop_failure_skips_TargetStopping :
    RunControlPrivate.running.state = .Running ∧
    (run RunControlPrivate.running [.stop]).pending = [.toolStop] ∧
    stateHistory (run RunControlPrivate.running [.stop, .answer (.failure "tool stop failed")]) =
      [.TargetPreparing, .ToolPreparing, .TargetStarting, .ToolStarting, .Running,
       .ToolStopping, .Stopped] ∧
    (run RunControlPrivate.running [.stop, .answer (.failure "tool stop failed")]).pending =
      [] := by
  decide

/-- C9, amended: after `stop()` is accepted in `Running` the state is `ToolStopping` with
`toolRunner.stop()` queued.  If the tool stop reports success the state goes to
`TargetStopping` with `targetRunner.stop()` queued and then, whether the target stop
reports success or failure, to `Stopped`.  If the tool stop reports failure the state goes
from `ToolStopping` straight to `Stopped` with `targetRunner.onToolFailure()` called once.
In both cases `finished` is emitted once and nothing stays queued. -/
theorem stop_sequence (h : ProcessHandle) (t : List Obs) (msg : String) (o : Outcome) :
    let d : RunControlPrivate := ⟨.Running, h, [], t⟩
    let stopped := RunControl.stop d
    let toolOk := answer stopped .success
    let targetDone := answer toolOk o
    let toolFailed := answer stopped (.failure msg)
    (stopped.state = .ToolStopping ∧ stopped.pending = [.toolStop]) ∧
    (toolOk.state = .TargetStopping ∧ toolOk.pending = [.targetStop]) ∧
    (stateHistory targetDone = stateHistory d ++ [.ToolStopping, .TargetStopping, .Stopped] ∧
      targetDone.state = .Initialized ∧ targetDone.pending = [] ∧
      occurrences .finished targetDone = occurrences .finished d + 1) ∧
    (stateHistory toolFailed = stateHistory d ++ [.ToolStopping, .Stopped] ∧
      toolFailed.state = .Initialized ∧ toolFailed.pending = [] ∧
      occurrences .targetOnToolFailure toolFailed = occurrences .targetOnToolFailure d + 1 ∧
      occurrences .finished toolFailed = occurrences .finished d + 1) := by
  intro d stopped toolOk targetDone toolFailed
  have e1 : stopped = ⟨.ToolStopping, h, [.toolStop],
      t ++ [⟨.stateAssigned .Running .ToolStopping, .ToolStopping, h⟩]⟩ := by
    simp [stopped, d, RunControl.stop, initiateStop_eq]
  have e2 : toolOk = ⟨.TargetStopping, h, [.targetStop],
      t ++ [⟨.stateAssigned .Running .ToolStopping, .ToolStopping, h⟩,
            ⟨.toolOnStop, .ToolStopping, h⟩,
            ⟨.stateAssigned .ToolStopping .TargetStopping, .TargetStopping, h⟩]⟩ := by
    simp [toolOk, e1, answer, Cmd.isTarget, ToolRunner.reportSuccess, onToolSuccess_ToolStopping]
  refine ⟨by simp [e1], by simp [e2], ?_, ?_⟩
  · cases o with
    | success =>
      by_cases hh : h = noProcess <;>
        simp [targetDone, e2, d, answer, Cmd.isTarget, TargetRunner.reportSuccess,
          onTargetSuccess_TargetStopping, stoppedTail, isAllowedTransition, stateHistory,
          occurrences, events, List.filterMap_append, List.count_append, hh]
    | failure m =>
      by_cases hh : h = noProcess <;> by_cases hm : m = "" <;>
        simp [targetDone, e2, d, answer, Cmd.isTarget, TargetRunner.reportFailure,
          onTargetFailed_stage, stoppedTail, errorEntry, isAllowedTransition, stateHistory,
          occurrences, events, List.filterMap_append, List.count_append, hh, hm]
  · by_cases hh : h = noProcess <;> by_cases hm : msg = "" <;>
      simp [toolFailed, e1, d, answer, Cmd.isTarget, ToolRunner.reportFailure,
        onToolFailed_stage, stoppedTail, errorEntry, isAllowedTransition, stateHistory,
        occurrences, events, List.filterMap_append, List.count_append, hh, hm]

/-- C10: the claim says a process exit while `Running` leads through `ToolStopping` and
`TargetStopping`.  On a run control that reached `Running`, `onProcessFinished` of the
simple target runner assigns `Stopped` directly after `Running`. -/
theorem process_exit_skips_stopping_states :
    RunControlPrivate.running.state = .Running ∧
    stateHistory (SimpleTargetRunner.onProcessFinished QtText.posix "/bin/true"
      RunControlPrivate.running 0 .NormalExit) =
      [.TargetPreparing, .ToolPreparing, .TargetStarting, .ToolStarting, .Running,
       .Stopped] := by
  decide

/-- C10, amended: with a simple target runner, when the launched process exits while the
run control is `Running`, the exit message (`<exe> crashed.` after a crash, otherwise
`<exe> exited with code <n>`, with a line break) is appended in Normal format,
`targetRunner.onStop()` is called, `checkState(TargetStopping)` prints its mismatch line
and the state goes from `Running` directly to `Stopped`, an edge of the transition table,
without passing through `ToolStopping` or `TargetStopping`; no stop command is queued and
`finished` is emitted once.  The trace entries added are exactly these, in this order,
followed by those of `setState(Stopped)`; the process handle is the default one at the
end. -/
theorem process_exit_while_Running (qt : QtText) (exe : String) (h : ProcessHandle)
    (q : List Cmd) (t : List Obs) (exitCode : Int) (status : ExitStatus) :
    let d : RunControlPrivate := ⟨.Running, h, q, t⟩
    let r := SimpleTargetRunner.onProcessFinished qt exe d exitCode status
    transitions r = transitions d ++ [(.Running, .Stopped)] ∧
    isAllowedTransition .Running .Stopped = true ∧
    r.state = .Initialized ∧ r.pending = q ∧
    occurrences .targetOnStop r = occurrences .targetOnStop d + 1 ∧
    occurrences .finished r = occurrences .finished d + 1 ∧
    r.applicationProcessHandle = noProcess ∧
    r.trace = t ++
      [⟨.appendMessage
          ((if status = .CrashExit then qt.arg "%1 crashed." (qt.toNativeSeparators exe)
            else qt.arg (qt.arg "%1 exited with code %2" (qt.toNativeSeparators exe))
              (toString exitCode)) ++ "\n") .NormalMessageFormat, .Running, h⟩,
        ⟨.targetOnStop, .Running, h⟩,
        ⟨.qDebugUnexpectedState .TargetStopping .Running, .Running, h⟩] ++
      stoppedTail .Running h := by
  intro d r
  refine ⟨?_, ?_, ?_, ?_, ?_, ?_, ?_, ?_⟩
  all_goals
    by_cases hh : h = noProcess <;>
      simp [r, d, SimpleTargetRunner.onProcessFinished, appendMessage, emit,
        TargetRunner.reportStopped, onTargetStopped_eq, stoppedTail, isAllowedTransition,
        transitions, occurrences, events, List.filterMap_append, List.count_append, hh]

theorem unexpectedStateText_ne_empty (s : State) : unexpectedStateText s ≠ "" := by
  cases s <;> decide

theorem onTargetSuccess_unexpected (s : State) (h : ProcessHandle) (q : List Cmd)
    (t : List Obs) (hs : s ∉ targetStages) :
    onTargetSuccess ⟨s, h, q, t⟩ =
      ⟨.Initialized, noProcess, q,
        t ++ [⟨.appendMessage (unexpectedStateText s) .ErrorMessageFormat, s, h⟩]
          ++ stoppedTail s h⟩ := by
  have hu := unexpectedStateText_ne_empty s
  simp only [targetStages, List.mem_cons, List.mem_singleton, List.not_mem_nil, or_false,
    not_or] at hs
  obtain ⟨h1, h2, h3⟩ := hs
  simp [onTargetSuccess, debugMessage, debugStates, h1, h2, h3, showError_eq,
    setState_Stopped_eq, errorEntry, hu]

theorem onTargetFailed_unexpected (s : State) (h : ProcessHandle) (q : List Cmd)
    (t : List Obs) (msg : String) (hs : s ∉ targetStages) :
    onTargetFailed ⟨s, h, q, t⟩ msg =
      ⟨.Initialized, noProcess, q,
        t ++ errorEntry msg s h
          ++ [⟨.appendMessage (unexpectedStateText s) .ErrorMessageFormat, s, h⟩]
          ++ stoppedTail s h⟩ := by
  have hu := unexpectedStateText_ne_empty s
  simp only [targetStages, List.mem_cons, List.mem_singleton, List.not_mem_nil, or_false,
    not_or] at hs
  obtain ⟨h1, h2, h3⟩ := hs
  simp [onTargetFailed, debugMessage, debugStates, h1, h2, h3, showError_eq,
    setState_Stopped_eq, errorEntry, hu]

theorem onToolSuccess_unexpected (s : State) (h : ProcessHandle) (q : List Cmd)
    (t : List Obs) (hs : s ∉ toolStages) :
    onToolSuccess ⟨s, h, q, t⟩ =
      ⟨.Initialized, noProcess, q,
        t ++ [⟨.appendMessage (unexpectedStateText s) .ErrorMessageFormat, s, h⟩]
          ++ stoppedTail s h⟩ := by
  have hu := unexpectedStateText_ne_empty s
  simp only [toolStages, List.mem_cons, List.mem_singleton, List.not_mem_nil, or_false,
    not_or] at hs
  obtain ⟨h1, h2, h3⟩ := hs
  simp [onToolSuccess, debugMessage, debugStates, h1, h2, h3, showError_eq,
    setState_Stopped_eq, errorEntry, hu]

theorem onToolFailed_unexpected (s : State) (h : ProcessHandle) (q : List Cmd)
    (t : List Obs) (msg : String) (hs : s ∉ toolStages) :
    onToolFailed ⟨s, h, q, t⟩ msg =
      ⟨.Initialized, noProcess, q,
        t ++ errorEntry msg s h
          ++ [⟨.appendMessage (unexpectedStateText s) .ErrorMessageFormat, s, h⟩]
          ++ stoppedTail s h⟩ := by
  have hu := unexpectedStateText_ne_empty s
  simp only [toolStages, List.mem_cons, List.mem_singleton, List.not_mem_nil, or_false,
    not_or] at hs
  obtain ⟨h1, h2, h3⟩ := hs
  simp [onToolFailed, debugMessage, debugStates, h1, h2, h3, showError_eq,
    setState_Stopped_eq, errorEntry, hu]

theorem count_stoppedTail (s : State) (h : ProcessHandle) :
    ((stoppedTail s h).map Obs.ev).count .toolOnFinished = 1 ∧
    ((stoppedTail s h).map Obs.ev).count .targetOnFinished = 1 ∧
    ((stoppedTail s h).map Obs.ev).count .finished = 1 := by
  by_cases hh : h = noProcess <;> by_cases ha : isAllowedTransition s .Stopped = true <;>
    simp [stoppedTail, hh, ha]

/-- C11: for every non-empty message, `start()` in `Initialized` followed by the target
preparation reporting failure with that message assigns `TargetPreparing` and then
`Stopped`, calls `toolRunner.onTargetFailure()` once, appends the message in Error format
before `finished`, never queues `toolRunner.prepare()` and never emits `started`. -/
theorem target_prepare_failure_scenario (msg : String) (h : ProcessHandle) (t : List Obs)
    (hm : msg ≠ "") :
    RunControl.start ⟨.Initialized, h, [], t⟩ =
      ⟨.TargetPreparing, h, [.targetPrepare],
        t ++ [⟨.stateAssigned .Initialized .TargetPreparing, .TargetPreparing, h⟩]⟩ ∧
    answer (RunControl.start ⟨.Initialized, h, [], t⟩) (.failure msg) =
      ⟨.Initialized, noProcess, [],
        t ++ [⟨.stateAssigned .Initialized .TargetPreparing, .TargetPreparing, h⟩,
              ⟨.toolOnTargetFailure, .TargetPreparing, h⟩,
              ⟨.appendMessage msg .ErrorMessageFormat, .TargetPreparing, h⟩,
              ⟨.qDebugInvalidTransition .TargetPreparing .Stopped, .TargetPreparing, h⟩,
              ⟨.stateAssigned .TargetPreparing .Stopped, .Stopped, h⟩]
          ++ (if h ≠ noProcess then
                [⟨.applicationProcessHandleChanged, .Stopped, noProcess⟩]
              else [])
          ++ [⟨.toolOnFinished, .Stopped, noProcess⟩,
              ⟨.targetOnFinished, .Stopped, noProcess⟩,
              ⟨.finished, .Initialized, noProcess⟩]⟩ := by
  have e1 : RunControl.start ⟨.Initialized, h, [], t⟩ =
      ⟨.TargetPreparing, h, [.targetPrepare],
        t ++ [⟨.stateAssigned .Initialized .TargetPreparing, .TargetPreparing, h⟩]⟩ := by
    simp [RunControl.start, initiateStart_eq]
  refine ⟨e1, ?_⟩
  rw [e1]
  by_cases hh : h = noProcess <;>
    simp [answer, Cmd.isTarget, TargetRunner.reportFailure, onTargetFailed_stage, errorEntry,
      stoppedTail, isAllowedTransition, hm, hh]

/-- Witness for C11: the message "device unreachable" on a fresh run control. -/
theorem target_prepare_failure_scenario_witness :
    "device unreachable" ≠ "" ∧
    (answer (RunControl.start ⟨.Initialized, noProcess, [], []⟩)
      (.failure "device unreachable")).trace.map Obs.ev =
      [.stateAssigned .Initialized .TargetPreparing, .toolOnTargetFailure,
       .appendMessage "device unreachable" .ErrorMessageFormat,
       .qDebugInvalidTransition .TargetPreparing .Stopped,
       .stateAssigned .TargetPreparing .Stopped, .toolOnFinished, .targetOnFinished,
       .finished] :=
  ⟨by decide, by
    rw [(target_prepare_failure_scenario "device unreachable" noProcess [] (by decide)).2]
    decide⟩

/-- C14: for every current handle and every handle `h`, `setApplicationProcessHandle(h)`
leaves `h` as the stored handle, emits `applicationProcessHandleChanged` once when `h`
differs from the current handle and not at all when it is equal, and changes nothing else
but the trace; a second call with the same `h` changes nothing, so two calls emit at most
one notification. -/
theorem setApplicationProcessHandle_dedup (s : State) (c h : ProcessHandle) (q : List Cmd)
    (t : List Obs) :
    setApplicationProcessHandle ⟨s, c, q, t⟩ h =
      ⟨s, h, q, t ++ (if h ≠ c then [⟨.applicationProcessHandleChanged, s, h⟩] else [])⟩ ∧
    setApplicationProcessHandle (setApplicationProcessHandle ⟨s, c, q, t⟩ h) h =
      setApplicationProcessHandle ⟨s, c, q, t⟩ h ∧
    occurrences .applicationProcessHandleChanged
        (setApplicationProcessHandle (setApplicationProcessHandle ⟨s, c, q, t⟩ h) h) ≤
      occurrences .applicationProcessHandleChanged ⟨s, c, q, t⟩ + 1 := by
  by_cases hc : c = h
  · subst hc
    simp [setApplicationProcessHandle]
  · have hc2 : ¬ h = c := fun e => hc e.symm
    simp [setApplicationProcessHandle, emit, hc, hc2, occurrences, events, List.count_append]

/-- C17: a success or failure report in a state that does not expect it is handled by a
total function that appends the Error-format message "Unexpected state: " followed by the
number of the state (after the failure message, when there is one) and forces `Stopped`:
the trace continues with the entries of `setState(Stopped)`, which run `onFinished` on
both runners and emit `finished`, the stored state ends as `Initialized`, and nothing is
queued. -/
theorem unexpected_report_forces_Stopped (s : State) (h : ProcessHandle) (q : List Cmd)
    (t : List Obs) (msg : String) :
    (s ∉ targetStages →
      onTargetSuccess ⟨s, h, q, t⟩ =
        ⟨.Initialized, noProcess, q,
          t ++ [⟨.appendMessage (unexpectedStateText s) .ErrorMessageFormat, s, h⟩]
            ++ stoppedTail s h⟩ ∧
      onTargetFailed ⟨s, h, q, t⟩ msg =
        ⟨.Initialized, noProcess, q,
          t ++ errorEntry msg s h
            ++ [⟨.appendMessage (unexpectedStateText s) .ErrorMessageFormat, s, h⟩]
            ++ stoppedTail s h⟩) ∧
    (s ∉ toolStages →
      onToolSuccess ⟨s, h, q, t⟩ =
        ⟨.Initialized, noProcess, q,
          t ++ [⟨.appendMessage (unexpectedStateText s) .ErrorMessageFormat, s, h⟩]
            ++ stoppedTail s h⟩ ∧
      onToolFailed ⟨s, h, q, t⟩ msg =
        ⟨.Initialized, noProcess, q,
          t ++ errorEntry msg s h
            ++ [⟨.appendMessage (unexpectedStateText s) .ErrorMessageFormat, s, h⟩]
            ++ stoppedTail s h⟩) ∧
    (State.all.map unexpectedStateText =
      ["Unexpected state: 0", "Unexpected state: 1", "Unexpected state: 2",
       "Unexpected state: 3", "Unexpected state: 4", "Unexpected state: 5",
       "Unexpected state: 6", "Unexpected state: 7", "Unexpected state: 8"]) ∧
    ((stoppedTail s h).map Obs.ev).count .toolOnFinished = 1 ∧
    ((stoppedTail s h).map Obs.ev).count .targetOnFinished = 1 ∧
    ((stoppedTail s h).map Obs.ev).count .finished = 1 := by
  exact ⟨fun hs => ⟨onTargetSuccess_unexpected s h q t hs, onTargetFailed_unexpected s h q t msg hs⟩,
    fun hs => ⟨onToolSuccess_unexpected s h q t hs, onToolFailed_unexpected s h q t msg hs⟩,
    by decide, count_stoppedTail s h⟩

/-- Witness for C17: a target success in `Running` and a tool failure in `Initialized`. -/
theorem unexpected_report_forces_Stopped_witness :
    (State.Running ∉ targetStages ∧
      (onTargetSuccess ⟨.Running, 4711, [], []⟩).state = .Initialized) ∧
    (State.Initialized ∉ toolStages ∧
      (onToolFailed ⟨.Initialized, noProcess, [], []⟩ "late").state = .Initialized) :=
  ⟨⟨by decide, by
      rw [((unexpected_report_forces_Stopped .Running 4711 [] [] "").1 (by decide)).1]⟩,
    ⟨by decide, by
      rw [((unexpected_report_forces_Stopped .Initialized noProcess [] [] "late").2.1
        (by decide)).2]⟩⟩

theorem appended_eq (s s₁ : State) (h h₁ : ProcessHandle) (q q₁ : List Cmd) (t l : List Obs) :
    appended ⟨s, h, q, t⟩ ⟨s₁, h₁, q₁, t ++ l⟩ = l.map Obs.ev := by
  simp [appended, events]

/-- C18: the claim says every failure report appends an Error-format message before
`finished`.  A tool failure with an empty message in `ToolStarting`, on a run control
driven there by `start()` and three successful stages, appends no message at all before
`finished`. -/
theorem empty_failure_message_shows_no_error :
    (run .init [.start, .answer .success, .answer .success, .answer .success]).state =
      .ToolStarting ∧
    events (run .init [.start, .answer .success, .answer .success, .answer .success,
        .answer (.failure "")]) =
      [.stateAssigned .Initialized .TargetPreparing,
       .stateAssigned .TargetPreparing .ToolPreparing,
       .stateAssigned .ToolPreparing .TargetStarting,
       .stateAssigned .TargetStarting .ToolStarting,
       .targetOnToolFailure,
       .qDebugInvalidTransition .ToolStarting .Stopped,
       .stateAssigned .ToolStarting .Stopped,
       .toolOnFinished, .targetOnFinished, .finished] := by
  decide

/-- C18, amended: for every failure report from a runner whose message is not empty (in
any state), and for every failure report in a state that does not expect it (with any
message), an Error-format message is appended before the `finished` the report leads to;
a failure report with an empty message in a state that expects it appends no Error-format
message before `finished`. -/
theorem failure_shows_error (s : State) (h : ProcessHandle) (q : List Cmd) (t : List Obs)
    (msg : String) :
    (msg ≠ "" ∨ s ∉ targetStages →
      errorBeforeFinished (appended ⟨s, h, q, t⟩ (onTargetFailed ⟨s, h, q, t⟩ msg)) = true) ∧
    (msg ≠ "" ∨ s ∉ toolStages →
      errorBeforeFinished (appended ⟨s, h, q, t⟩ (onToolFailed ⟨s, h, q, t⟩ msg)) = true) ∧
    (msg = "" ∧ s ∈ targetStages →
      errorBeforeFinished (appended ⟨s, h, q, t⟩ (onTargetFailed ⟨s, h, q, t⟩ msg)) = false) ∧
    (msg = "" ∧ s ∈ toolStages →
      errorBeforeFinished (appended ⟨s, h, q, t⟩ (onToolFailed ⟨s, h, q, t⟩ msg)) = false) ∧
    Ev.finished ∈ appended ⟨s, h, q, t⟩ (onTargetFailed ⟨s, h, q, t⟩ msg) ∧
    Ev.finished ∈ appended ⟨s, h, q, t⟩ (onToolFailed ⟨s, h, q, t⟩ msg) := by
  have hfin : Ev.finished ∈ (stoppedTail s h).map Obs.ev := by
    simp [stoppedTail]
  have hT : ∀ hs : s ∈ targetStages,
      appended ⟨s, h, q, t⟩ (onTargetFailed ⟨s, h, q, t⟩ msg) =
        List.map Obs.ev (([⟨.toolOnTargetFailure, s, h⟩] : List Obs) ++
          (errorEntry msg s h ++ stoppedTail s h)) := by
    intro hs
    rw [onTargetFailed_stage s h q t msg hs]
    simp only [List.append_assoc]
    rw [appended_eq]
  have hT2 : ∀ hs : s ∉ targetStages,
      appended ⟨s, h, q, t⟩ (onTargetFailed ⟨s, h, q, t⟩ msg) =
        List.map Obs.ev (errorEntry msg s h ++
          (([⟨.appendMessage (unexpectedStateText s) .ErrorMessageFormat, s, h⟩] : List Obs) ++
            stoppedTail s h)) := by
    intro hs
    rw [onTargetFailed_unexpected s h q t msg hs]
    simp only [List.append_assoc]
    rw [appended_eq]
  have hO : ∀ hs : s ∈ toolStages,
      appended ⟨s, h, q, t⟩ (onToolFailed ⟨s, h, q, t⟩ msg) =
        List.map Obs.ev
          ((if s = .ToolStopping then
              ([⟨.qDebugUnexpectedState .ToolStarting s, s, h⟩] : List Obs)
            else []) ++
            (([⟨.targetOnToolFailure, s, h⟩] : List Obs) ++
              (errorEntry msg s h ++ stoppedTail s h))) := by
    intro hs
    rw [onToolFailed_stage s h q t msg hs]
    simp only [List.append_assoc]
    rw [appended_eq]
  have hO2 : ∀ hs : s ∉ toolStages,
      appended ⟨s, h, q, t⟩ (onToolFailed ⟨s, h, q, t⟩ msg) =
        List.map Obs.ev (errorEntry msg s h ++
          (([⟨.appendMessage (unexpectedStateText s) .ErrorMessageFormat, s, h⟩] : List Obs) ++
            stoppedTail s h)) := by
    intro hs
    rw [onToolFailed_unexpected s h q t msg hs]
    simp only [List.append_assoc]
    rw [appended_eq]
  refine ⟨?_, ?_, ?_, ?_, ?_, ?_⟩
  · intro hyp
    by_cases hs : s ∈ targetStages
    · have hm : msg ≠ "" := hyp.resolve_right (fun hn => hn hs)
      rw [hT hs]
      simp [errorEntry, hm, errorBeforeFinished]
    · rw [hT2 hs]
      by_cases hm : msg = "" <;> simp [errorEntry, hm, errorBeforeFinished]
  · intro hyp
    by_cases hs : s ∈ toolStages
    · have hm : msg ≠ "" := hyp.resolve_right (fun hn => hn hs)
      rw [hO hs]
      by_cases hp : s = .ToolStopping <;> simp [errorEntry, hm, hp, errorBeforeFinished]
    · rw [hO2 hs]
      by_cases hm : msg = "" <;> simp [errorEntry, hm, errorBeforeFinished]
  · rintro ⟨hm, hs⟩
    rw [hT hs]
    by_cases hh : h = noProcess <;> by_cases ha : isAllowedTransition s .Stopped = true <;>
      simp [errorEntry, hm, stoppedTail, hh, ha, errorBeforeFinished]
  · rintro ⟨hm, hs⟩
    rw [hO hs]
    by_cases hh : h = noProcess <;> by_cases ha : isAllowedTransition s .Stopped = true <;>
      by_cases hp : s = .ToolStopping <;>
      simp [errorEntry, hm, stoppedTail, hh, ha, hp, errorBeforeFinished]
  · by_cases hs : s ∈ targetStages
    · rw [hT hs]; simp only [List.map_append, List.mem_append]; exact Or.inr (Or.inr hfin)
    · rw [hT2 hs]; simp only [List.map_append, List.mem_append]; exact Or.inr (Or.inr hfin)
  · by_cases hs : s ∈ toolStages
    · rw [hO hs]; simp only [List.map_append, List.mem_append]
      exact Or.inr (Or.inr (Or.inr hfin))
    · rw [hO2 hs]; simp only [List.map_append, List.mem_append]; exact Or.inr (Or.inr hfin)

/-- Witness for C18: a non-empty message in a stage state, an empty message in states that
do not expect the report, and an empty message in stage states. -/
theorem failure_shows_error_witness :
    (("device unreachable" ≠ "" ∨ State.TargetPreparing ∉ targetStages) ∧
      errorBeforeFinished (appended ⟨.TargetPreparing, 0, [], []⟩
        (onTargetFailed ⟨.TargetPreparing, 0, [], []⟩ "device unreachable")) = true) ∧
    (("" ≠ "" ∨ State.Running ∉ toolStages) ∧
      errorBeforeFinished (appended ⟨.Running, 4711, [], []⟩
        (onToolFailed ⟨.Running, 4711, [], []⟩ "")) = true) ∧
    (("" = "" ∧ State.TargetStarting ∈ targetStages) ∧
      errorBeforeFinished (appended ⟨.TargetStarting, 0, [], []⟩
        (onTargetFailed ⟨.TargetStarting, 0, [], []⟩ "")) = false) ∧
    (("" = "" ∧ State.ToolStopping ∈ toolStages) ∧
      errorBeforeFinished (appended ⟨.ToolStopping, 4711, [], []⟩
        (onToolFailed ⟨.ToolStopping, 4711, [], []⟩ "")) = false) :=
  ⟨⟨Or.inl (by decide),
      (failure_shows_error .TargetPreparing 0 [] [] "device unreachable").1
        (Or.inl (by decide))⟩,
    ⟨Or.inr (by decide),
      (failure_shows_error .Running 4711 [] [] "").2.1 (Or.inr (by decide))⟩,
    ⟨⟨rfl, by decide⟩,
      (failure_shows_error .TargetStarting 0 [] [] "").2.2.1 ⟨rfl, by decide⟩⟩,
    ⟨⟨rfl, by decide⟩,
      (failure_shows_error .ToolStopping 4711 [] [] "").2.2.2.1 ⟨rfl, by decide⟩⟩⟩

/-- C19: the claim says `started` is emitted once per run cycle also when the tool start
is reported through `reportApplicationStart()`.  In `ToolStarting` that call runs
`onToolStarted`, whose `setState(Running)` emits `started`, and then emits `started` a
second time; on a run control driven to `ToolStarting` by `start()` and three successful
stages the cycle has two `started`. -/
theorem reportApplicationStart_emits_started_twice (h : ProcessHandle) (q : List Cmd)
    (t : List Obs) :
    RunControl.reportApplicationStart ⟨.ToolStarting, h, q, t⟩ =
      ⟨.Running, h, q,
        t ++ [⟨.stateAssigned .ToolStarting .Running, .Running, h⟩,
              ⟨.started, .Running, h⟩, ⟨.started, .Running, h⟩]⟩ ∧
    (run .init [.start, .answer .success, .answer .success, .answer .success]).state =
      .ToolStarting ∧
    occurrences .started (RunControl.reportApplicationStart
      (run .init [.start, .answer .success, .answer .success, .answer .success])) = 2 ∧
    occurrences .started
      (run .init [.start, .answer .success, .answer .success, .answer .success,
        .answer .success]) = 1 := by
  refine ⟨?_, by decide, by decide, by decide⟩
  simp [RunControl.reportApplicationStart, onToolStarted, checkState, setState, debugMessage,
    debugStates, emit, isAllowedTransition]

/-- C15: the claim says a runner is replaced only in `Initialized` or `Stopped`.  On a run
control in `Running` with tool runner 2 installed, `setToolRunner(3)` deletes runner 2 and
installs runner 3, and `setTargetRunner(4)` deletes target runner 1 and installs 4. -/
theorem setToolRunner_while_Running_replaces :
    RunControlPrivate.running.state = .Running ∧
    RunControl.setToolRunner ⟨RunControlPrivate.running, some 1, some 2, []⟩ (some 3) =
      ⟨RunControlPrivate.running, some 1, some 3, [2]⟩ ∧
    RunControl.setTargetRunner ⟨RunControlPrivate.running, some 1, some 2, []⟩ (some 4) =
      ⟨RunControlPrivate.running, some 4, some 2, [1]⟩ := by
  decide

/-- C15, amended: replacing a runner with `setTargetRunner` or `setToolRunner` takes
effect in every state: the runner installed before is deleted and the new one is
installed; the life-cycle state is neither consulted nor changed, and the other runner
stays as it is. -/
theorem setRunner_replaces_in_every_state (rc : RunControlRunners)
    (runner : Option RunnerId) :
    RunControl.setToolRunner rc runner =
      ⟨rc.d, rc.targetRunner, runner, rc.deleted ++ rc.toolRunner.toList⟩ ∧
    RunControl.setTargetRunner rc runner =
      ⟨rc.d, runner, rc.toolRunner, rc.deleted ++ rc.targetRunner.toList⟩ :=
  ⟨rfl, rfl⟩

/-- C20: `a.canReUseOutputPane(b)` is false whenever `b` is `Running`; when `b` is not
`Running` it is `Runnable::canReUseOutputPane` of the runnable of `a` applied to the
runnable of `b`, and that is, for a null runnable in `a`, true exactly when the runnable
of `b` is null as well. -/
theorem canReUseOutputPane_spec {α : Type} (conceptCanReUse : α → Option α → Bool)
    (runnable otherRunnable : Runnable α) (other : RunControlPrivate) :
    (other.state = .Running →
      RunControl.canReUseOutputPane conceptCanReUse runnable other otherRunnable = false) ∧
    (other.state ≠ .Running →
      RunControl.canReUseOutputPane conceptCanReUse runnable other otherRunnable =
        runnable.canReUseOutputPane conceptCanReUse otherRunnable) ∧
    (runnable.d = none →
      (runnable.canReUseOutputPane conceptCanReUse otherRunnable = true ↔
        otherRunnable.d = none)) ∧
    (∀ c : α, runnable.d = some c →
      runnable.canReUseOutputPane conceptCanReUse otherRunnable =
        conceptCanReUse c otherRunnable.d) := by
  refine ⟨?_, ?_, ?_, ?_⟩
  · intro hr
    simp [RunControl.canReUseOutputPane, RunControl.isRunning, hr]
  · intro hr
    simp [RunControl.canReUseOutputPane, RunControl.isRunning, hr]
  · intro hn
    simp [Runnable.canReUseOutputPane, hn]
  · intro c hc
    simp [Runnable.canReUseOutputPane, hc]

/-- Witness for C20: runnables described by a string and compared by equality; `b` is
`Running` in the first part and freshly constructed in the others. -/
theorem canReUseOutputPane_spec_witness :
    (RunControlPrivate.running.state = .Running ∧
      RunControl.canReUseOutputPane (fun (c : String) o => o == some c) ⟨some "app"⟩
        RunControlPrivate.running ⟨some "app"⟩ = false) ∧
    (RunControlPrivate.init.state ≠ .Running ∧
      RunControl.canReUseOutputPane (fun (c : String) o => o == some c) ⟨some "app"⟩
        RunControlPrivate.init ⟨some "app"⟩ =
          Runnable.canReUseOutputPane (fun (c : String) o => o == some c) ⟨some "app"⟩
            ⟨some "app"⟩) ∧
    ((⟨none⟩ : Runnable String).d = none ∧
      (Runnable.canReUseOutputPane (fun (c : String) o => o == some c) ⟨none⟩ ⟨none⟩ = true ↔
        (⟨none⟩ : Runnable String).d = none)) :=
  ⟨⟨by decide,
      (canReUseOutputPane_spec (fun (c : String) o => o == some c) ⟨some "app"⟩ ⟨some "app"⟩
        RunControlPrivate.running).1 (by decide)⟩,
    ⟨by decide,
      (canReUseOutputPane_spec (fun (c : String) o => o == some c) ⟨some "app"⟩ ⟨some "app"⟩
        RunControlPrivate.init).2.1 (by decide)⟩,
    ⟨rfl,
      (canReUseOutputPane_spec (fun (c : String) o => o == some c) ⟨none⟩ ⟨none⟩
        RunControlPrivate.init).2.2.1 rfl⟩⟩

/-! ### A history in front of the trace does not change what a call does -/

theorem afterHistory_state (t : List Obs) (d : RunControlPrivate) :
    (afterHistory t d).state = d.state := rfl

theorem afterHistory_handle (t : List Obs) (d : RunControlPrivate) :
    (afterHistory t d).applicationProcessHandle = d.applicationProcessHandle := rfl

theorem afterHistory_pending (t : List Obs) (d : RunControlPrivate) :
    (afterHistory t d).pending = d.pending := rfl

theorem emit_afterHistory (t : List Obs) (d : RunControlPrivate) (e : Ev) :
    emit (afterHistory t d) e = afterHistory t (emit d e) := by
  simp [emit, afterHistory]

theorem singleShot_afterHistory (t : List Obs) (d : RunControlPrivate) (c : Cmd) :
    singleShot (afterHistory t d) c = afterHistory t (singleShot d c) := rfl

theorem debugMessage_afterHistory (t : List Obs) (d : RunControlPrivate) (msg : String) :
    debugMessage (afterHistory t d) msg = afterHistory t (debugMessage d msg) := rfl

theorem checkState_afterHistory (t : List Obs) (d : RunControlPrivate) (s : State) :
    checkState (afterHistory t d) s = afterHistory t (checkState d s) := by
  unfold checkState
  split <;> simp_all [afterHistory_state, emit_afterHistory]

theorem showError_afterHistory (t : List Obs) (d : RunControlPrivate) (msg : String) :
    showError (afterHistory t d) msg = afterHistory t (showError d msg) := by
  unfold showError appendMessage
  split <;> simp [emit_afterHistory]

theorem setApplicationProcessHandle_afterHistory (t : List Obs) (d : RunControlPrivate)
    (h : ProcessHandle) :
    setApplicationProcessHandle (afterHistory t d) h =
      afterHistory t (setApplicationProcessHandle d h) := by
  obtain ⟨s, c, q, l⟩ := d
  by_cases hc : c = h <;> simp [setApplicationProcessHandle, afterHistory, emit, hc]

theorem setState_afterHistory (t : List Obs) (d : RunControlPrivate) (s : State) :
    setState (afterHistory t d) s = afterHistory t (setState d s) := by
  obtain ⟨s₀, h, q, l⟩ := d
  by_cases hs : s = .Stopped
  · subst hs
    simp [afterHistory, setState_Stopped_eq]
  · simp [afterHistory, setState_eq_of_ne_Stopped _ _ _ _ _ hs]

theorem onTargetSuccess_afterHistory (t : List Obs) (d : RunControlPrivate) :
    onTargetSuccess (afterHistory t d) = afterHistory t (onTargetSuccess d) := by
  simp only [onTargetSuccess, debugMessage, debugStates, Bool.false_eq_true, if_false,
    afterHistory_state]
  split_ifs <;>
    simp [onTargetPrepared, onTargetStarted, onTargetStopped, afterHistory_state,
      emit_afterHistory, singleShot_afterHistory, debugMessage_afterHistory, checkState_afterHistory,
      showError_afterHistory, setState_afterHistory]

theorem onToolSuccess_afterHistory (t : List Obs) (d : RunControlPrivate) :
    onToolSuccess (afterHistory t d) = afterHistory t (onToolSuccess d) := by
  simp only [onToolSuccess, debugMessage, debugStates, Bool.false_eq_true, if_false,
    afterHistory_state]
  split_ifs <;>
    simp [onToolPrepared, onToolStarted, onToolStopped, afterHistory_state,
      emit_afterHistory, singleShot_afterHistory, debugMessage_afterHistory, checkState_afterHistory,
      showError_afterHistory, setState_afterHistory]

theorem onTargetFailed_afterHistory (t : List Obs) (d : RunControlPrivate) (msg : String) :
    onTargetFailed (afterHistory t d) msg = afterHistory t (onTargetFailed d msg) := by
  simp only [onTargetFailed, debugMessage, debugStates, Bool.false_eq_true, if_false,
    afterHistory_state]
  split_ifs <;>
    simp [onTargetPrepareFailed, onTargetStartFailed, onTargetStopFailed, afterHistory_state,
      emit_afterHistory, debugMessage_afterHistory, checkState_afterHistory,
      showError_afterHistory, setState_afterHistory]

theorem onToolFailed_afterHistory (t : List Obs) (d : RunControlPrivate) (msg : String) :
    onToolFailed (afterHistory t d) msg = afterHistory t (onToolFailed d msg) := by
  simp only [onToolFailed, debugMessage, debugStates, Bool.false_eq_true, if_false,
    afterHistory_state]
  split_ifs <;>
    simp [onToolPrepareFailed, onToolStartFailed, afterHistory_state,
      emit_afterHistory, debugMessage_afterHistory, checkState_afterHistory,
      showError_afterHistory, setState_afterHistory]

theorem apply_afterHistory (t : List Obs) (d : RunControlPrivate) (c : Call) :
    c.apply (afterHistory t d) = afterHistory t (c.apply d) := by
  cases c with
  | start =>
    simp [Call.apply, RunControl.start, initiateStart, singleShot_afterHistory,
      debugMessage_afterHistory, checkState_afterHistory, setState_afterHistory]
  | stop =>
    simp [Call.apply, RunControl.stop, initiateStop, singleShot_afterHistory,
      debugMessage_afterHistory, checkState_afterHistory, setState_afterHistory]
  | reportStopped =>
    simp [Call.apply, TargetRunner.reportStopped, onTargetStopped, emit_afterHistory,
      debugMessage_afterHistory, checkState_afterHistory, setState_afterHistory]
  | setApplicationProcessHandle h =>
    simp [Call.apply, setApplicationProcessHandle_afterHistory]
  | answer o =>
    obtain ⟨s, h, q, l⟩ := d
    cases q with
    | nil => simp [Call.apply, answer, afterHistory]
    | cons c q =>
      have e : ∀ q' : List Cmd, (⟨s, h, q', t ++ l⟩ : RunControlPrivate) =
          afterHistory t ⟨s, h, q', l⟩ := fun _ => rfl
      cases o <;> cases c <;>
        simp [Call.apply, answer, Cmd.isTarget, afterHistory, TargetRunner.reportSuccess,
          TargetRunner.reportFailure, ToolRunner.reportSuccess, ToolRunner.reportFailure] <;>
        simp only [e, onTargetSuccess_afterHistory, onToolSuccess_afterHistory,
          onTargetFailed_afterHistory, onToolFailed_afterHistory] <;> rfl

theorem legal_afterHistory (t : List Obs) (d : RunControlPrivate) (c : Call) :
    c.legal (afterHistory t d) = c.legal d := by
  cases c <;> rfl

theorem run_afterHistory (t : List Obs) (cs : List Call) (d : RunControlPrivate) :
    run (afterHistory t d) cs = afterHistory t (run d cs) := by
  induction cs generalizing d with
  | nil => rfl
  | cons c cs ih => simp [run, apply_afterHistory, ih]

theorem legalRun_afterHistory (t : List Obs) (cs : List Call) (d : RunControlPrivate) :
    legalRun (afterHistory t d) cs = legalRun d cs := by
  induction cs generalizing d with
  | nil => rfl
  | cons c cs ih => simp [legalRun, apply_afterHistory, legal_afterHistory, ih]

theorem justFinished_append_singleton (s : State) (h : ProcessHandle) (q : List Cmd)
    (t : List Obs) (o : Obs) :
    justFinished ⟨s, h, q, t ++ [o]⟩ = (o.ev == .finished) := by
  simp [justFinished, events, List.getLast?_append]

theorem RestInv_of_reset (q : List Cmd) (t : List Obs) :
    RestInv ⟨.Initialized, noProcess, q, t⟩ := fun _ => ⟨rfl, rfl⟩

theorem RestInv_apply (d : RunControlPrivate) (c : Call) (hd : LegalInv d) (hr : RestInv d)
    (hc : c.legal d = true) : RestInv (c.apply d) := by
  obtain ⟨s, h, q, t⟩ := d
  obtain ⟨h1, h2, -⟩ := hd
  simp only at h1 h2
  subst h2
  cases c with
  | start =>
    have hs : s = .Initialized := by simpa [Call.legal] using hc
    subst hs
    intro hj
    simp [Call.apply, RunControl.start, initiateStart_eq, justFinished_append_singleton] at hj
  | stop =>
    have hs : s = .Running := by simpa [Call.legal] using hc
    subst hs
    intro hj
    simp [Call.apply, RunControl.stop, initiateStop_eq, justFinished_append_singleton] at hj
  | reportStopped =>
    simp only [Call.apply, TargetRunner.reportStopped, onTargetStopped_eq]
    exact RestInv_of_reset _ _
  | setApplicationProcessHandle h' =>
    by_cases hh : h = h'
    · simpa [Call.apply, setApplicationProcessHandle, hh] using hr
    · intro hj
      simp [Call.apply, setApplicationProcessHandle, emit, hh,
        justFinished_append_singleton] at hj
  | answer o =>
    cases s <;> simp [Call.legal, expectedPending] at hc h1 <;> cases o <;>
      simp only [Call.apply, answer, Cmd.isTarget, expectedPending,
        TargetRunner.reportSuccess, TargetRunner.reportFailure, ToolRunner.reportSuccess,
        ToolRunner.reportFailure, onTargetSuccess_TargetPreparing, onToolSuccess_ToolPreparing,
        onTargetSuccess_TargetStarting, onToolSuccess_ToolStarting,
        onTargetSuccess_TargetStopping, onToolSuccess_ToolStopping] <;>
      first
      | (rw [onTargetFailed_stage _ _ _ _ _ (by decide)]; exact RestInv_of_reset _ _)
      | (rw [onToolFailed_stage _ _ _ _ _ (by decide)]; exact RestInv_of_reset _ _)
      | exact RestInv_of_reset _ _
      | (intro hj; simp [justFinished, events, List.getLast?_append] at hj)

theorem RestInv_run (cs : List Call) (d : RunControlPrivate) (hd : LegalInv d)
    (hr : RestInv d) (hl : legalRun d cs = true) : RestInv (run d cs) := by
  induction cs generalizing d with
  | nil => simpa [run] using hr
  | cons c cs ih =>
    simp only [legalRun, Bool.and_eq_true] at hl
    exact ih (c.apply d) (LegalInv_apply d c hd hl.1) (RestInv_apply d c hd hr hl.1) hl.2

/-- Re-run without a race: when a run on a fresh run control in which the process exits
only while the state is `Running` has just emitted `finished`, the stored state is
`Initialized`, the process handle is the default one and no command is pending:
the run control is a fresh one with the history so far in its trace.  So `start()` is
legal again, and every further sequence of calls is legal exactly when it is legal on a
fresh run control and yields the same states, handles, queued commands and trace entries
as on a fresh run control, after the history. -/
theorem rerun_like_fresh (cs : List Call) (hl : legalRun .init cs = true)
    (hf : justFinished (run .init cs) = true) :
    (run .init cs).state = .Initialized ∧
    (run .init cs).applicationProcessHandle = noProcess ∧
    (run .init cs).pending = [] ∧
    run .init cs = afterHistory (run .init cs).trace .init ∧
    Call.legal (run .init cs) .start = true ∧
    ∀ more : List Call,
      legalRun (run .init cs) more = legalRun .init more ∧
      run (run .init cs) more = afterHistory (run .init cs).trace (run .init more) := by
  have hi := LegalInv_run cs .init LegalInv_init hl
  have hr := RestInv_run cs .init LegalInv_init (RestInv_of_reset _ _) hl hf
  obtain ⟨hs, hh⟩ := hr
  have hp : (run .init cs).pending = [] := by
    rw [hi.2.1, hs]; rfl
  have he : run .init cs = afterHistory (run .init cs).trace .init := by
    generalize run .init cs = r at hs hh hp
    obtain ⟨s, h, q, t⟩ := r
    simp only at hs hh hp
    subst hs hh hp
    simp [afterHistory, RunControlPrivate.init]
  refine ⟨hs, hh, hp, he, by simp [Call.legal, hs], ?_⟩
  intro more
  constructor
  · conv_lhs => rw [he]
    exact legalRun_afterHistory _ _ _
  · conv_lhs => rw [he]
    exact run_afterHistory _ _ _

/-- A re-run without a race: a run cycle ended by `stop()` with a failing target stop; the
second `start()` then gives the state and the queue of the first. -/
theorem rerun_like_fresh_witness :
    legalRun .init [.start, .answer .success, .answer .success, .answer .success,
      .setApplicationProcessHandle 4711, .answer .success, .stop, .answer .success,
      .answer (.failure "busy")] = true ∧
    justFinished (run .init [.start, .answer .success, .answer .success, .answer .success,
      .setApplicationProcessHandle 4711, .answer .success, .stop, .answer .success,
      .answer (.failure "busy")]) = true ∧
    (run .init [.start, .answer .success, .answer .success, .answer .success,
      .setApplicationProcessHandle 4711, .answer .success, .stop, .answer .success,
      .answer (.failure "busy")]).applicationProcessHandle = noProcess :=
  ⟨by decide, by decide,
    (rerun_like_fresh [.start, .answer .success, .answer .success, .answer .success,
      .setApplicationProcessHandle 4711, .answer .success, .stop, .answer .success,
      .answer (.failure "busy")] (by decide) (by decide)).2.1⟩

/-- C13: with a simple target runner on a local target, the process exits right after it
started, while `toolRunner.start()` is still queued.  Every input is legal and the run
cycle ends with `finished`: the state is `Initialized` and the process handle is the
default one, but `toolRunner.start()` of the cycle that ended is still queued.  A second
`start()` is accepted; on a fresh run control the next turn of the event loop prepares the
target and leads to `ToolPreparing`, here it runs the left-over `toolRunner.start()`, whose
report meets `TargetPreparing`: the run control shows `Unexpected state: 1` and forces
`Stopped`, so the second cycle ends before the target was prepared. -/
theorem process_exit_with_queued_command_breaks_rerun :
    legalSimpleRun .localApp .init quickExit = true ∧
    justFinished (simpleRun .localApp .init quickExit).d = true ∧
    (simpleRun .localApp .init quickExit).d.state = .Initialized ∧
    (simpleRun .localApp .init quickExit).d.applicationProcessHandle = noProcess ∧
    (simpleRun .localApp .init quickExit).d.pending = [.toolStart] ∧
    SimpleRun.init.d.pending = [] ∧
    legalSimpleRun .localApp .init [.start, .turn] = true ∧
    appended SimpleRun.init.d (simpleRun .localApp .init [.start, .turn]).d =
      [.stateAssigned .Initialized .TargetPreparing,
       .stateAssigned .TargetPreparing .ToolPreparing] ∧
    (simpleRun .localApp .init [.start, .turn]).d.state = .ToolPreparing ∧
    (simpleRun .localApp .init [.start, .turn]).d.pending = [.toolPrepare] ∧
    legalSimpleRun .localApp .init (quickExit ++ [.start, .turn]) = true ∧
    appended (simpleRun .localApp .init quickExit).d
        (simpleRun .localApp .init (quickExit ++ [.start, .turn])).d =
      [.stateAssigned .Initialized .TargetPreparing,
       .appendMessage "Unexpected state: 1" .ErrorMessageFormat,
       .qDebugInvalidTransition .TargetPreparing .Stopped,
       .stateAssigned .TargetPreparing .Stopped, .toolOnFinished, .targetOnFinished,
       .finished] ∧
    (simpleRun .localApp .init (quickExit ++ [.start, .turn])).d.state = .Initialized ∧
    (simpleRun .localApp .init (quickExit ++ [.start, .turn])).d.pending =
      [.targetPrepare] := by
  decide

/-! ### A run control with a simple target runner -/

theorem SimpleInv_init : SimpleInv .init := by
  simp [SimpleInv, SimpleRun.init, RunControlPrivate.init, simpleShape]

theorem SimpleInv_start (s : SimpleRun) (hs : SimpleInv s)
    (hl : s.d.state = .Initialized) : SimpleInv { s with d := RunControl.start s.d } := by
  obtain ⟨⟨st, h, q, t⟩, conn, calls, ph⟩ := s
  simp only at hl
  subst hl
  obtain ⟨h1, h2, h3⟩ := hs
  simp only at h1 h2 h3
  cases ph <;> simp [simpleShape] at h1
  obtain ⟨hq1, hq2⟩ := h1
  refine ⟨?_, by simp, ?_⟩
  · match q, hq1, hq2 with
    | [], _, _ => simp [RunControl.start, initiateStart_eq, simpleShape]
    | [x], _, hx =>
      cases x <;> simp at hx <;> simp [RunControl.start, initiateStart_eq, simpleShape]
  · intro _
    simpa [RunControl.start, initiateStart_eq, liveStates] using h3

theorem SimpleInv_stop (s : SimpleRun) (hs : SimpleInv s)
    (hl : s.d.state = .Running) : SimpleInv { s with d := RunControl.stop s.d } := by
  obtain ⟨⟨st, h, q, t⟩, conn, calls, ph⟩ := s
  simp only at hl
  subst hl
  obtain ⟨h1, h2, h3⟩ := hs
  simp only at h1 h2 h3
  cases ph <;> simp [simpleShape] at h1
  subst h1
  refine ⟨?_, by simpa using h2, ?_⟩
  · simp [RunControl.stop, initiateStop_eq, simpleShape]
  · simp [RunControl.stop, initiateStop_eq, liveStates]

theorem SimpleInv_processStarted (cfg : SimpleConfig) (s : SimpleRun) (hs : SimpleInv s)
    (pid : ProcessHandle) (hl : s.phase = .starting) :
    SimpleInv (SimpleInput.apply cfg s (.processStarted pid)) := by
  obtain ⟨⟨st, h, q, t⟩, conn, calls, ph⟩ := s
  simp only at hl
  subst hl
  obtain ⟨h1, h2, h3⟩ := hs
  simp only at h1 h2 h3
  have hc : conn = localSignals := h2 (by decide)
  subst hc
  cases st <;> simp [simpleShape] at h1
  subst h1
  have hh : h = noProcess := h3 (by decide)
  subst hh
  by_cases hp : noProcess = pid <;>
    simp [SimpleInv, SimpleInput.apply, localSignals, SimpleTargetRunner.onProcessStarted,
      setApplicationProcessHandle, emit, TargetRunner.reportSuccess,
      onTargetSuccess_TargetStarting, simpleShape, liveStates, hp]

theorem SimpleInv_processExited (cfg : SimpleConfig) (s : SimpleRun) (hs : SimpleInv s)
    (exitCode : Int) (status : ExitStatus) (hl : s.phase = .starting ∨ s.phase = .running) :
    SimpleInv (SimpleInput.apply cfg s (.processExited exitCode status)) := by
  obtain ⟨⟨st, h, q, t⟩, conn, calls, ph⟩ := s
  simp only at hl
  obtain ⟨h1, h2, h3⟩ := hs
  simp only at h1 h2 h3
  have hc : conn = localSignals := h2 (by rcases hl with hl | hl <;> simp [hl])
  subst hc
  rcases hl with hl | hl <;> subst hl <;> cases st <;> simp [simpleShape] at h1 <;>
    (first | subst h1 | rcases h1 with rfl | rfl) <;>
    simp [SimpleInv, SimpleInput.apply, localSignals, SimpleTargetRunner.onProcessFinished,
      appendMessage, emit, TargetRunner.reportStopped, onTargetStopped_eq, simpleShape,
      liveStates]

theorem SimpleInv_targetStart (cfg : SimpleConfig) (hsync : isSynchronousLauncher cfg = true)
    (t : List Obs) (conn : List LauncherSignal) (calls : List LauncherCall) :
    SimpleInv (SimpleTargetRunner.start cfg
      ⟨⟨.TargetStarting, noProcess, [], t⟩, conn, calls, .idle⟩) := by
  by_cases h1 : cfg.standard = true <;> by_cases h2 : cfg.executable = "" <;>
    by_cases h3 : cfg.fileExists cfg.executable = true <;>
    simp [SimpleInv, SimpleTargetRunner.start, hsync, h1, h2, h3, TargetRunner.reportFailure,
      onTargetFailed_stage, appendMessage, emit, simpleShape, liveStates]

theorem SimpleInv_turn (cfg : SimpleConfig) (hsync : isSynchronousLauncher cfg = true)
    (s : SimpleRun) (hs : SimpleInv s) (hl : s.d.pending ≠ []) :
    SimpleInv (s.turn cfg) := by
  obtain ⟨⟨st, h, q, t⟩, conn, calls, ph⟩ := s
  simp only at hl
  obtain ⟨h1, h2, h3⟩ := hs
  simp only at h1 h2 h3
  cases st <;> cases ph <;> simp [simpleShape, liveStates] at h1 h3
  · -- Initialized, one stale command
    subst h3
    obtain ⟨hq1, hq2⟩ := h1
    match q, hl, hq1, hq2 with
    | [x], _, _, hx =>
      cases x <;> simp at hx <;>
        simp [SimpleInv, SimpleRun.turn, TargetRunner.prepare, ToolRunner.prepare,
        ToolRunner.start, ToolRunner.stop, TargetRunner.reportSuccess,
        ToolRunner.reportSuccess, SimpleTargetRunner.stop, onTargetSuccess_TargetPreparing,
        onToolSuccess_ToolPreparing, onToolSuccess_ToolStarting, onToolSuccess_ToolStopping,
        onTargetSuccess_unexpected, onToolSuccess_unexpected, targetStages, toolStages,
        simpleShape, liveStates]
  · -- TargetPreparing
    subst h3
    rcases h1 with rfl | ⟨⟨hq1, hq2⟩, hq3⟩
    · simp [SimpleInv, SimpleRun.turn, TargetRunner.prepare, ToolRunner.prepare,
        ToolRunner.start, ToolRunner.stop, TargetRunner.reportSuccess,
        ToolRunner.reportSuccess, SimpleTargetRunner.stop, onTargetSuccess_TargetPreparing,
        onToolSuccess_ToolPreparing, onToolSuccess_ToolStarting, onToolSuccess_ToolStopping,
        onTargetSuccess_unexpected, onToolSuccess_unexpected, targetStages, toolStages,
        simpleShape, liveStates]
    · match q, hq1, hq2, hq3 with
      | [x, y], _, hx, hy =>
        simp at hy
        subst hy
        cases x <;> simp at hx <;>
          simp [SimpleInv, SimpleRun.turn, TargetRunner.prepare, ToolRunner.prepare,
        ToolRunner.start, ToolRunner.stop, TargetRunner.reportSuccess,
        ToolRunner.reportSuccess, SimpleTargetRunner.stop, onTargetSuccess_TargetPreparing,
        onToolSuccess_ToolPreparing, onToolSuccess_ToolStarting, onToolSuccess_ToolStopping,
        onTargetSuccess_unexpected, onToolSuccess_unexpected, targetStages, toolStages,
        simpleShape, liveStates]
  · -- ToolPreparing
    subst h3
    rcases h1 with rfl | rfl <;>
      simp [SimpleInv, SimpleRun.turn, TargetRunner.prepare, ToolRunner.prepare,
        ToolRunner.start, ToolRunner.stop, TargetRunner.reportSuccess,
        ToolRunner.reportSuccess, SimpleTargetRunner.stop, onTargetSuccess_TargetPreparing,
        onToolSuccess_ToolPreparing, onToolSuccess_ToolStarting, onToolSuccess_ToolStopping,
        onTargetSuccess_unexpected, onToolSuccess_unexpected, targetStages, toolStages,
        simpleShape, liveStates]
  · -- TargetStarting, launcher idle
    subst h3
    rcases h1 with rfl | rfl
    · simpa [SimpleRun.turn] using SimpleInv_targetStart cfg hsync t conn calls
    · exact absurd rfl hl
  · exact absurd h1 hl
  · subst h1
    simp [SimpleInv, SimpleRun.turn, TargetRunner.prepare, ToolRunner.prepare,
        ToolRunner.start, ToolRunner.stop, TargetRunner.reportSuccess,
        ToolRunner.reportSuccess, SimpleTargetRunner.stop, onTargetSuccess_TargetPreparing,
        onToolSuccess_ToolPreparing, onToolSuccess_ToolStarting, onToolSuccess_ToolStopping,
        onTargetSuccess_unexpected, onToolSuccess_unexpected, targetStages, toolStages,
        simpleShape, liveStates]
    simpa using h2
  · exact absurd h1 hl
  · subst h1
    simp [SimpleInv, SimpleRun.turn, TargetRunner.prepare, ToolRunner.prepare,
        ToolRunner.start, ToolRunner.stop, TargetRunner.reportSuccess,
        ToolRunner.reportSuccess, SimpleTargetRunner.stop, onTargetSuccess_TargetPreparing,
        onToolSuccess_ToolPreparing, onToolSuccess_ToolStarting, onToolSuccess_ToolStopping,
        onTargetSuccess_unexpected, onToolSuccess_unexpected, targetStages, toolStages,
        simpleShape, liveStates]
    simpa using h2
  · rcases h1 with rfl | rfl
    · exact absurd rfl hl
    · simp [SimpleInv, SimpleRun.turn, TargetRunner.prepare, ToolRunner.prepare,
        ToolRunner.start, ToolRunner.stop, TargetRunner.reportSuccess,
        ToolRunner.reportSuccess, SimpleTargetRunner.stop, onTargetSuccess_TargetPreparing,
        onToolSuccess_ToolPreparing, onToolSuccess_ToolStarting, onToolSuccess_ToolStopping,
        onTargetSuccess_unexpected, onToolSuccess_unexpected, targetStages, toolStages,
        simpleShape, liveStates]
      simpa using h2

theorem SimpleInv_apply (cfg : SimpleConfig) (hsync : isSynchronousLauncher cfg = true)
    (s : SimpleRun) (i : SimpleInput) (hs : SimpleInv s) (hl : i.legal s = true) :
    SimpleInv (i.apply cfg s) := by
  cases i with
  | start => exact SimpleInv_start s hs (by simpa [SimpleInput.legal] using hl)
  | stop => exact SimpleInv_stop s hs (by simpa [SimpleInput.legal] using hl)
  | turn =>
    exact SimpleInv_turn cfg hsync s hs (by
      intro hq
      simp [SimpleInput.legal, hq] at hl)
  | processStarted pid =>
    exact SimpleInv_processStarted cfg s hs pid (by simpa [SimpleInput.legal] using hl)
  | processExited exitCode status =>
    exact SimpleInv_processExited cfg s hs exitCode status
      (by simpa [SimpleInput.legal] using hl)

theorem SimpleInv_run (cfg : SimpleConfig) (hsync : isSynchronousLauncher cfg = true)
    (is : List SimpleInput) (s : SimpleRun) (hs : SimpleInv s)
    (hl : legalSimpleRun cfg s is = true) : SimpleInv (simpleRun cfg s is) := by
  induction is generalizing s with
  | nil => simpa [simpleRun] using hs
  | cons i is ih =>
    simp only [legalSimpleRun, Bool.and_eq_true] at hl
    exact ih (i.apply cfg s) (SimpleInv_apply cfg hsync s i hs hl.1) hl.2

/-- C12: with a simple target runner on a local target, a default tool runner and an empty
executable path, `start()` in `Initialized` followed by the three turns of the event loop
that run `targetRunner.prepare()`, `toolRunner.prepare()` and `targetRunner.start()` ends
with the state back at `Initialized` after `Stopped` was assigned and `finished` emitted,
with the Error-format message "No executable specified." appended before, without any
call on the process launcher, without `started`, and with nothing left in the queue. -/
theorem empty_executable_scenario (cfg : SimpleConfig) (h : ProcessHandle) (t : List Obs)
    (conn : List LauncherSignal) (calls : List LauncherCall) (ph : LauncherPhase)
    (hsync : isSynchronousLauncher cfg = true) (hstd : cfg.standard = true)
    (hexe : cfg.executable = "") :
    legalSimpleRun cfg ⟨⟨.Initialized, h, [], t⟩, conn, calls, ph⟩
      [.start, .turn, .turn, .turn] = true ∧
    simpleRun cfg ⟨⟨.Initialized, h, [], t⟩, conn, calls, ph⟩ [.start, .turn, .turn, .turn] =
      ⟨⟨.Initialized, noProcess, [],
        t ++ [⟨.stateAssigned .Initialized .TargetPreparing, .TargetPreparing, h⟩,
              ⟨.stateAssigned .TargetPreparing .ToolPreparing, .ToolPreparing, h⟩,
              ⟨.stateAssigned .ToolPreparing .TargetStarting, .TargetStarting, h⟩,
              ⟨.toolOnTargetFailure, .TargetStarting, h⟩,
              ⟨.appendMessage "No executable specified." .ErrorMessageFormat,
                .TargetStarting, h⟩,
              ⟨.qDebugInvalidTransition .TargetStarting .Stopped, .TargetStarting, h⟩,
              ⟨.stateAssigned .TargetStarting .Stopped, .Stopped, h⟩]
          ++ (if h ≠ noProcess then
                [⟨.applicationProcessHandleChanged, .Stopped, noProcess⟩]
              else [])
          ++ [⟨.toolOnFinished, .Stopped, noProcess⟩,
              ⟨.targetOnFinished, .Stopped, noProcess⟩,
              ⟨.finished, .Initialized, noProcess⟩]⟩,
        localSignals, calls, ph⟩ := by
  by_cases hh : h = noProcess <;>
    simp [legalSimpleRun, simpleRun, SimpleInput.legal, SimpleInput.apply, SimpleRun.turn,
      RunControl.start, initiateStart_eq, TargetRunner.prepare, ToolRunner.prepare,
      TargetRunner.reportSuccess, ToolRunner.reportSuccess, onTargetSuccess_TargetPreparing,
      onToolSuccess_ToolPreparing, SimpleTargetRunner.start, hsync, hstd, hexe,
      TargetRunner.reportFailure, onTargetFailed_stage, errorEntry, stoppedTail,
      isAllowedTransition, hh]

/-- Witness for C12: a desktop device and the empty path on a fresh run control. -/
theorem empty_executable_scenario_witness :
    isSynchronousLauncher .noExecutable = true ∧ SimpleConfig.noExecutable.standard = true ∧
    SimpleConfig.noExecutable.executable = "" ∧
    (simpleRun .noExecutable ⟨⟨.Initialized, noProcess, [], []⟩, [], [], .idle⟩
      [.start, .turn, .turn, .turn]).launcherCalls = [] ∧
    (simpleRun .noExecutable ⟨⟨.Initialized, noProcess, [], []⟩, [], [], .idle⟩
      [.start, .turn, .turn, .turn]).d.state = .Initialized :=
  ⟨by decide, rfl, rfl, by
    rw [(empty_executable_scenario .noExecutable noProcess [] [] [] .idle (by decide) rfl
      rfl).2], by decide⟩

/-- C16: the claim says a process handle other than the default one is met only in
`Running`, `ToolStopping` and `TargetStopping`.  With a simple target runner on a local
target and an existing executable, after `start()`, three turns of the event loop and the
launcher signal `processStarted` with pid 4711, the state is `ToolStarting` and the handle
is 4711; the change was announced while the state was still `TargetStarting`. -/
theorem process_handle_set_before_Running :
    legalSimpleRun .localApp .init [.start, .turn, .turn, .turn, .processStarted 4711] =
      true ∧
    (simpleRun .localApp .init
      [.start, .turn, .turn, .turn, .processStarted 4711]).d.state = .ToolStarting ∧
    (simpleRun .localApp .init
      [.start, .turn, .turn, .turn, .processStarted 4711]).d.applicationProcessHandle =
      4711 ∧
    (⟨.applicationProcessHandleChanged, .TargetStarting, 4711⟩ : Obs) ∈
      (simpleRun .localApp .init
        [.start, .turn, .turn, .turn, .processStarted 4711]).d.trace := by
  decide

/-- C16, amended: with a simple target runner on a local target and a default tool
runner, after every legal sequence of inputs on a fresh run control (`start()` in
`Initialized`, `stop()` in `Running`, turns of the event loop, `processStarted` after the
launcher was started, `processExited` while its process is starting or running), a
process handle other than the default one is met only in the states `ToolStarting`,
`Running`, `ToolStopping` and `TargetStopping`. -/
theorem process_handle_only_in_live_states (cfg : SimpleConfig) (is : List SimpleInput)
    (hsync : isSynchronousLauncher cfg = true)
    (hl : legalSimpleRun cfg .init is = true)
    (hp : (simpleRun cfg .init is).d.applicationProcessHandle ≠ noProcess) :
    (simpleRun cfg .init is).d.state ∈
      [State.ToolStarting, .Running, .ToolStopping, .TargetStopping] := by
  by_contra hn
  exact hp ((SimpleInv_run cfg hsync is .init SimpleInv_init hl).2.2 hn)

/-- Witness for C16: the process started and the tool start still pending. -/
theorem process_handle_only_in_live_states_witness :
    isSynchronousLauncher .localApp = true ∧
    legalSimpleRun .localApp .init [.start, .turn, .turn, .turn, .processStarted 4711] =
      true ∧
    (simpleRun .localApp .init
      [.start, .turn, .turn, .turn, .processStarted 4711]).d.applicationProcessHandle ≠
      noProcess ∧
    (simpleRun .localApp .init
      [.start, .turn, .turn, .turn, .processStarted 4711]).d.state ∈
      [State.ToolStarting, .Running, .ToolStopping, .TargetStopping] :=
  ⟨by decide, by decide, by decide,
    process_handle_only_in_live_states .localApp
      [.start, .turn, .turn, .turn, .processStarted 4711] (by decide) (by decide)
      (by decide)⟩

/-- C21: when the run control is `Running`, a custom confirmation callback is installed and
the flag is absent or true, `promptToStop` calls the callback once, with the pointer it
received, returns the value the callback returns and shows no dialog. -/
theorem promptToStop_custom_callback (qt : QtText) (displayName : String)
    (d : RunControlPrivate) (callback : Option Bool → Bool × Bool)
    (user : MessageBox → DialogAnswer) (optionalPrompt : Option Bool)
    (hr : d.state = .Running) (hf : optionalPrompt = none ∨ optionalPrompt = some true) :
    RunControl.promptToStop qt displayName d (some callback) user optionalPrompt =
      ⟨(callback optionalPrompt).1, optionalPrompt.map fun _ => (callback optionalPrompt).2,
        [optionalPrompt], []⟩ := by
  rcases hf with rfl | rfl <;> simp [RunControl.promptToStop, RunControl.isRunning, hr]

/-- Witness for C21: a callback that declines and clears the flag, called with a true
flag on a run control in `Running`. -/
theorem promptToStop_custom_callback_witness :
    RunControlPrivate.running.state = .Running ∧
    ((some true : Option Bool) = none ∨ (some true : Option Bool) = some true) ∧
    RunControl.promptToStop QtText.posix "app" RunControlPrivate.running
      (some fun _ => (false, false)) (fun _ => ⟨true, true⟩) (some true) =
      ⟨false, some false, [some true], []⟩ :=
  ⟨by decide, Or.inr rfl,
    promptToStop_custom_callback QtText.posix "app" RunControlPrivate.running
      (fun _ => (false, false)) (fun _ => ⟨true, true⟩) (some true) (by decide) (Or.inr rfl)⟩

/-- C30: `promptToStop` returns true, calls no callback, shows no dialog and leaves the flag
as it is whenever the run control is not `Running`, and also whenever a flag is passed
whose value is false. -/
theorem promptToStop_short_cut (qt : QtText) (displayName : String) (d : RunControlPrivate)
    (promptToStop : Option (Option Bool → Bool × Bool)) (user : MessageBox → DialogAnswer)
    (optionalPrompt : Option Bool)
    (hs : d.state ≠ .Running ∨ optionalPrompt = some false) :
    RunControl.promptToStop qt displayName d promptToStop user optionalPrompt =
      ⟨true, optionalPrompt, [], []⟩ := by
  by_cases hr : d.state = .Running
  · have hf : optionalPrompt = some false := hs.resolve_left (fun hn => hn hr)
    simp [RunControl.promptToStop, RunControl.isRunning, hr, hf]
  · simp [RunControl.promptToStop, RunControl.isRunning, hr]

/-- Witness for C30: a fresh run control with a callback installed, and a run control in
`Running` asked with a false flag. -/
theorem promptToStop_short_cut_witness :
    (RunControlPrivate.init.state ≠ .Running ∨ (some true : Option Bool) = some false) ∧
    RunControl.promptToStop QtText.posix "app" RunControlPrivate.init
      (some fun _ => (false, false)) (fun _ => ⟨false, true⟩) (some true) =
      ⟨true, some true, [], []⟩ ∧
    (RunControlPrivate.running.state ≠ .Running ∨ (some false : Option Bool) = some false) ∧
    RunControl.promptToStop QtText.posix "app" RunControlPrivate.running none
      (fun _ => ⟨false, true⟩) (some false) = ⟨true, some false, [], []⟩ :=
  ⟨Or.inl (by decide),
    promptToStop_short_cut QtText.posix "app" RunControlPrivate.init
      (some fun _ => (false, false)) (fun _ => ⟨false, true⟩) (some true)
      (Or.inl (by decide)),
    Or.inr rfl,
    promptToStop_short_cut QtText.posix "app" RunControlPrivate.running none
      (fun _ => ⟨false, true⟩) (some false) (Or.inr rfl)⟩

/-- C22: with the default target and tool runner, `start()` in `Initialized` followed by
turns of the event loop passes `TargetPreparing`, `ToolPreparing`, `TargetStarting` and
`ToolStarting` and is in `Running` after exactly four dispatched commands, in the order
`targetRunner.prepare`, `toolRunner.prepare`, `targetRunner.start`, `toolRunner.start`,
with one `started` and nothing left to dispatch.  A following `stop()` dispatches
`toolRunner.stop` and then `targetRunner.stop` and ends with one `finished`, the default
handle, an empty queue and the state `Initialized`. -/
theorem default_runners_cycle (h : ProcessHandle) (t : List Obs) :
    (defaultTurn^[0] (RunControl.start ⟨.Initialized, h, [], t⟩, [])).1.state =
      .TargetPreparing ∧
    (defaultTurn^[1] (RunControl.start ⟨.Initialized, h, [], t⟩, [])).1.state =
      .ToolPreparing ∧
    (defaultTurn^[2] (RunControl.start ⟨.Initialized, h, [], t⟩, [])).1.state =
      .TargetStarting ∧
    (defaultTurn^[3] (RunControl.start ⟨.Initialized, h, [], t⟩, [])).1.state =
      .ToolStarting ∧
    defaultTurn^[4] (RunControl.start ⟨.Initialized, h, [], t⟩, []) =
      (⟨.Running, h, [],
        t ++ [⟨.stateAssigned .Initialized .TargetPreparing, .TargetPreparing, h⟩,
              ⟨.stateAssigned .TargetPreparing .ToolPreparing, .ToolPreparing, h⟩,
              ⟨.stateAssigned .ToolPreparing .TargetStarting, .TargetStarting, h⟩,
              ⟨.stateAssigned .TargetStarting .ToolStarting, .ToolStarting, h⟩,
              ⟨.stateAssigned .ToolStarting .Running, .Running, h⟩,
              ⟨.started, .Running, h⟩]⟩,
        [.targetPrepare, .toolPrepare, .targetStart, .toolStart]) ∧
    defaultTurn^[5] (RunControl.start ⟨.Initialized, h, [], t⟩, []) =
      defaultTurn^[4] (RunControl.start ⟨.Initialized, h, [], t⟩, []) ∧
    defaultTurn^[2] (RunControl.stop ⟨.Running, h, [], t⟩, []) =
      (⟨.Initialized, noProcess, [],
        t ++ [⟨.stateAssigned .Running .ToolStopping, .ToolStopping, h⟩,
              ⟨.toolOnStop, .ToolStopping, h⟩,
              ⟨.stateAssigned .ToolStopping .TargetStopping, .TargetStopping, h⟩,
              ⟨.targetOnStop, .TargetStopping, h⟩,
              ⟨.stateAssigned .TargetStopping .Stopped, .Stopped, h⟩]
          ++ (if h ≠ noProcess then
                [⟨.applicationProcessHandleChanged, .Stopped, noProcess⟩]
              else [])
          ++ [⟨.toolOnFinished, .Stopped, noProcess⟩,
              ⟨.targetOnFinished, .Stopped, noProcess⟩,
              ⟨.finished, .Initialized, noProcess⟩]⟩,
        [.toolStop, .targetStop]) := by
  have e0 : RunControl.start ⟨.Initialized, h, [], t⟩ =
      ⟨.TargetPreparing, h, [.targetPrepare],
        t ++ [⟨.stateAssigned .Initialized .TargetPreparing, .TargetPreparing, h⟩]⟩ := by
    simp [RunControl.start, initiateStart_eq]
  have e1 : RunControl.stop ⟨.Running, h, [], t⟩ =
      ⟨.ToolStopping, h, [.toolStop],
        t ++ [⟨.stateAssigned .Running .ToolStopping, .ToolStopping, h⟩]⟩ := by
    simp [RunControl.stop, initiateStop_eq]
  rw [e0, e1]
  by_cases hh : h = noProcess <;>
    simp [Function.iterate_succ, defaultTurn, TargetRunner.prepare, ToolRunner.prepare,
      TargetRunner.start, ToolRunner.start, TargetRunner.stop, ToolRunner.stop,
      TargetRunner.reportSuccess, ToolRunner.reportSuccess, onTargetSuccess_TargetPreparing,
      onToolSuccess_ToolPreparing, onTargetSuccess_TargetStarting, onToolSuccess_ToolStarting,
      onToolSuccess_ToolStopping, onTargetSuccess_TargetStopping, stoppedTail,
      isAllowedTransition, hh]

/-! ### What the handlers put on the queue -/

theorem setState_pending (d : RunControlPrivate) (s : State) :
    (setState d s).pending = d.pending := by
  obtain ⟨s₀, h, q, t⟩ := d
  by_cases hs : s = .Stopped
  · subst hs
    rw [setState_Stopped_eq]
  · rw [setState_eq_of_ne_Stopped s₀ s h q t hs]

theorem checkState_pending (d : RunControlPrivate) (s : State) :
    (checkState d s).pending = d.pending := by
  unfold checkState
  split <;> rfl

theorem showError_pending (d : RunControlPrivate) (msg : String) :
    (showError d msg).pending = d.pending := by
  unfold showError
  split <;> rfl

theorem emit_pending (d : RunControlPrivate) (e : Ev) : (emit d e).pending = d.pending := rfl

theorem debugMessage_pending (d : RunControlPrivate) (msg : String) :
    (debugMessage d msg).pending = d.pending := rfl

theorem singleShot_pending (d : RunControlPrivate) (c : Cmd) :
    (singleShot d c).pending = d.pending ++ [c] := rfl

/-- C23: each of the six handlers that command a runner (`initiateStart`,
`onTargetPrepared`, `onToolPrepared`, `onTargetStarted`, `initiateStop`, `onToolStopped`)
appends exactly one deferred command to the queue, in every state, and reaches the runner
only through that queue; every other handler leaves the queue as it is, and the four
dispatching handlers append what the handler they select appends. -/
theorem handlers_enqueue (d : RunControlPrivate) (msg : String) (s : State) :
    ((initiateStart d).pending = d.pending ++ [.targetPrepare] ∧
      (onTargetPrepared d).pending = d.pending ++ [.toolPrepare] ∧
      (onToolPrepared d).pending = d.pending ++ [.targetStart] ∧
      (onTargetStarted d).pending = d.pending ++ [.toolStart] ∧
      (initiateStop d).pending = d.pending ++ [.toolStop] ∧
      (onToolStopped d).pending = d.pending ++ [.targetStop]) ∧
    ((onTargetPrepareFailed d msg).pending = d.pending ∧
      (onToolPrepareFailed d msg).pending = d.pending ∧
      (onTargetStartFailed d msg).pending = d.pending ∧
      (onToolStarted d).pending = d.pending ∧
      (onToolStartFailed d msg).pending = d.pending ∧
      (onToolStopFailed d msg).pending = d.pending ∧
      (onTargetStopped d).pending = d.pending ∧
      (onTargetStopFailed d msg).pending = d.pending ∧
      (handleFailure d).pending = d.pending ∧
      (setState d s).pending = d.pending ∧
      (checkState d s).pending = d.pending ∧
      (showError d msg).pending = d.pending ∧
      (debugMessage d msg).pending = d.pending) ∧
    ((onTargetSuccess d).pending =
        d.pending ++ (if d.state = .TargetPreparing then [.toolPrepare]
          else if d.state = .TargetStarting then [.toolStart] else []) ∧
      (onToolSuccess d).pending =
        d.pending ++ (if d.state = .ToolPreparing then [.targetStart]
          else if d.state = .ToolStopping then [.targetStop] else []) ∧
      (onTargetFailed d msg).pending = d.pending ∧
      (onToolFailed d msg).pending = d.pending) := by
  refine ⟨?_, ?_, ?_⟩
  · simp [initiateStart, onTargetPrepared, onToolPrepared, onTargetStarted, initiateStop,
      onToolStopped, singleShot_pending, debugMessage_pending, setState_pending,
      checkState_pending, emit_pending]
  · refine ⟨?_, ?_, ?_, ?_, ?_, ?_, ?_, ?_, ?_, setState_pending d s, checkState_pending d s,
      showError_pending d msg, rfl⟩ <;>
      first
      | simp [onTargetPrepareFailed, onToolPrepareFailed, onTargetStartFailed, onToolStarted,
          onToolStartFailed, onToolStopFailed, onTargetStopped, onTargetStopFailed,
          debugMessage_pending, setState_pending, checkState_pending, showError_pending,
          emit_pending]
      | (unfold handleFailure; split <;> exact setState_pending d .Stopped)
  · refine ⟨?_, ?_, ?_, ?_⟩
    · simp only [onTargetSuccess, debugMessage, debugStates, Bool.false_eq_true, if_false]
      split_ifs <;>
        simp_all [onTargetPrepared, onTargetStarted, onTargetStopped, singleShot_pending,
          debugMessage_pending, setState_pending, checkState_pending, showError_pending,
          emit_pending]
    · simp only [onToolSuccess, debugMessage, debugStates, Bool.false_eq_true, if_false]
      split_ifs <;>
        simp_all [onToolPrepared, onToolStarted, onToolStopped, singleShot_pending,
          debugMessage_pending, setState_pending, checkState_pending, showError_pending,
          emit_pending]
    · simp only [onTargetFailed, debugMessage, debugStates, Bool.false_eq_true, if_false]
      split_ifs <;>
        simp [onTargetPrepareFailed, onTargetStartFailed, onTargetStopFailed,
          debugMessage_pending, setState_pending, checkState_pending, showError_pending,
          emit_pending]
    · simp only [onToolFailed, debugMessage, debugStates, Bool.false_eq_true, if_false]
      split_ifs <;>
        simp [onToolPrepareFailed, onToolStartFailed,
          debugMessage_pending, setState_pending, checkState_pending, showError_pending,
          emit_pending]

/-! ### At most one command is outstanding -/

theorem FlightInv_init : FlightInv .init := by
  simp [FlightInv, Flight.init, Flight.outstanding, RunControlPrivate.init, expectedPending]

theorem FlightInv_apply (f : Flight) (c : FlightCall) (hf : FlightInv f)
    (hc : c.legal f = true) : FlightInv (c.apply f) := by
  obtain ⟨⟨s, h, q, t⟩, fl⟩ := f
  obtain ⟨h1, h2⟩ := hf
  simp only [Flight.outstanding] at h1 h2
  cases c with
  | start =>
    have hs : s = .Initialized := by simpa [FlightCall.legal] using hc
    subst hs
    simp [expectedPending] at h2
    obtain ⟨rfl, rfl⟩ := h2
    simp [FlightInv, FlightCall.apply, Flight.outstanding, RunControl.start, initiateStart_eq,
      expectedPending]
  | stop =>
    have hs : s = .Running := by simpa [FlightCall.legal] using hc
    subst hs
    simp [expectedPending] at h2
    obtain ⟨rfl, rfl⟩ := h2
    simp [FlightInv, FlightCall.apply, Flight.outstanding, RunControl.stop, initiateStop_eq,
      expectedPending]
  | dispatch =>
    cases q with
    | nil => simp [FlightCall.legal] at hc
    | cons c q =>
      simp only [FlightInv, FlightCall.apply, Flight.outstanding]
      refine ⟨h1, ?_⟩
      simpa using h2
  | report o =>
    cases fl with
    | nil => simp [FlightCall.legal] at hc
    | cons c fl =>
      cases s <;> simp [expectedPending] at h1 h2 <;> obtain ⟨rfl, rfl, rfl⟩ := h2 <;>
        cases o <;>
        simp [FlightInv, FlightCall.apply, Flight.outstanding, Cmd.isTarget, expectedPending,
          TargetRunner.reportSuccess, TargetRunner.reportFailure, ToolRunner.reportSuccess,
          ToolRunner.reportFailure, onTargetFailed_stage, onToolFailed_stage,
          onTargetSuccess_TargetPreparing, onToolSuccess_ToolPreparing,
          onTargetSuccess_TargetStarting, onToolSuccess_ToolStarting,
          onTargetSuccess_TargetStopping, onToolSuccess_ToolStopping]

theorem FlightInv_run (cs : List FlightCall) (f : Flight) (hf : FlightInv f)
    (hl : legalFlightRun f cs = true) : FlightInv (flightRun f cs) := by
  induction cs generalizing f with
  | nil => simpa [flightRun] using hf
  | cons c cs ih =>
    simp only [legalFlightRun, Bool.and_eq_true] at hl
    exact ih (c.apply f) (FlightInv_apply f c hf hl.1) hl.2

theorem expectedPending_length (s : State) : (expectedPending s).length ≤ 1 := by
  cases s <;> simp [expectedPending]

/-- C24: along every legal sequence on a fresh run control, with dispatching a command and
answering it as separate steps, at most one runner command is outstanding at any time,
counting the commands in the queue and those handed to a runner and not yet answered; the
outstanding command is the one the current state waits for, so a handler queues its
command only when the answered one is the only one that was outstanding. -/
theorem at_most_one_outstanding (cs : List FlightCall)
    (hl : legalFlightRun .init cs = true) :
    (flightRun .init cs).d.pending.length + (flightRun .init cs).inFlight.length ≤ 1 ∧
    (flightRun .init cs).outstanding = expectedPending (flightRun .init cs).d.state := by
  have hi := FlightInv_run cs .init FlightInv_init hl
  refine ⟨?_, hi.2⟩
  have hlen := expectedPending_length (flightRun .init cs).d.state
  rw [← hi.2] at hlen
  simp only [Flight.outstanding, List.length_append] at hlen
  omega

/-- Witness for C24: a complete cycle with every command dispatched and answered, the
target stop failing, and a second `start()`. -/
theorem at_most_one_outstanding_witness :
    legalFlightRun .init [.start, .dispatch, .report .success, .dispatch, .report .success,
      .dispatch, .report .success, .dispatch, .report .success, .stop, .dispatch,
      .report .success, .dispatch, .report (.failure "busy"), .start, .dispatch] = true ∧
    (flightRun .init [.start, .dispatch, .report .success, .dispatch, .report .success,
      .dispatch, .report .success, .dispatch, .report .success, .stop, .dispatch,
      .report .success, .dispatch, .report (.failure "busy"), .start,
      .dispatch]).outstanding = [.targetPrepare] :=
  ⟨by decide, by
    rw [(at_most_one_outstanding _ (by decide)).2]
    decide⟩

/-- C25: on a local target with a `StandardRunnable`, `SimpleTargetRunner::start()` starts
the process launcher exactly when the executable path is not empty and the file exists,
after appending the "Starting ..." message.  With an empty path it reports the one failure
"No executable specified.", with a missing file the one failure "Executable %1 does not
exist." filled with the native path; in both cases the launcher is not called.  The
signals of the launcher are connected in all three cases. -/
theorem SimpleTargetRunner_start_local (cfg : SimpleConfig) (s : SimpleRun)
    (hsync : isSynchronousLauncher cfg = true) (hstd : cfg.standard = true) :
    (cfg.executable ≠ "" ∧ cfg.fileExists cfg.executable = true →
      SimpleTargetRunner.start cfg s =
        ⟨appendMessage s.d
            (cfg.qt.arg "Starting %1..." (cfg.qt.toNativeSeparators cfg.executable) ++ "\n")
            .NormalMessageFormat,
          localSignals, s.launcherCalls ++ [.start], .starting⟩) ∧
    (cfg.executable = "" →
      SimpleTargetRunner.start cfg s =
        ⟨TargetRunner.reportFailure s.d "No executable specified.", localSignals,
          s.launcherCalls, s.phase⟩) ∧
    (cfg.executable ≠ "" ∧ cfg.fileExists cfg.executable = false →
      SimpleTargetRunner.start cfg s =
        ⟨TargetRunner.reportFailure s.d
            (cfg.qt.arg "Executable %1 does not exist."
              (cfg.qt.toNativeSeparators cfg.executable)),
          localSignals, s.launcherCalls, s.phase⟩) ∧
    ((SimpleTargetRunner.start cfg s).launcherCalls = s.launcherCalls ++ [.start] ↔
      cfg.executable ≠ "" ∧ cfg.fileExists cfg.executable = true) ∧
    ((SimpleTargetRunner.start cfg s).launcherCalls ≠ s.launcherCalls ++ [.start] →
      (SimpleTargetRunner.start cfg s).launcherCalls = s.launcherCalls) := by
  by_cases h2 : cfg.executable = "" <;> by_cases h3 : cfg.fileExists cfg.executable = true <;>
    simp [SimpleTargetRunner.start, hsync, hstd, h2, h3]

/-- Witness for C25: an existing executable, the empty path and a missing file, each on a
fresh run control. -/
theorem SimpleTargetRunner_start_local_witness :
    (isSynchronousLauncher .localApp = true ∧ SimpleConfig.localApp.standard = true ∧
      (SimpleConfig.localApp.executable ≠ "" ∧
        SimpleConfig.localApp.fileExists SimpleConfig.localApp.executable = true) ∧
      (SimpleTargetRunner.start .localApp .init).launcherCalls = [] ++ [.start]) ∧
    (isSynchronousLauncher .noExecutable = true ∧ SimpleConfig.noExecutable.standard = true ∧
      SimpleConfig.noExecutable.executable = "" ∧
      (SimpleTargetRunner.start .noExecutable .init).launcherCalls = []) ∧
    (isSynchronousLauncher .missingFile = true ∧ SimpleConfig.missingFile.standard = true ∧
      (SimpleConfig.missingFile.executable ≠ "" ∧
        SimpleConfig.missingFile.fileExists SimpleConfig.missingFile.executable = false) ∧
      (SimpleTargetRunner.start .missingFile .init).launcherCalls = []) :=
  ⟨⟨by decide, rfl, ⟨by decide, rfl⟩,
      (SimpleTargetRunner_start_local .localApp .init (by decide) rfl).2.2.2.1.mpr
        ⟨by decide, rfl⟩⟩,
    ⟨by decide, rfl, rfl, by
      rw [(SimpleTargetRunner_start_local .noExecutable .init (by decide) rfl).2.1 rfl]
      rfl⟩,
    ⟨by decide, rfl, ⟨by decide, rfl⟩, by
      rw [(SimpleTargetRunner_start_local .missingFile .init (by decide) rfl).2.2.1
        ⟨by decide, rfl⟩]
      rfl⟩⟩

/-- C26: the claim says the completion the launcher reports on a remote target is handled
as a tool success.  On a remote target, after `start()` and three turns of the event loop
the launcher was started remotely and the state is `TargetStarting`; the slot connected to
`finished` then gives what `onTargetSuccess` gives, the state `ToolStarting` with
`toolRunner.start()` queued, and not what `onToolSuccess` gives there. -/
theorem remote_finished_is_target_success :
    isSynchronousLauncher .remoteApp = false ∧
    (simpleRun .remoteApp .init [.start, .turn, .turn, .turn]).d.state = .TargetStarting ∧
    (simpleRun .remoteApp .init [.start, .turn, .turn, .turn]).launcherCalls =
      [.startRemote] ∧
    (SimpleTargetRunner.onLauncherFinished
      (simpleRun .remoteApp .init [.start, .turn, .turn, .turn])).d =
      onTargetSuccess (simpleRun .remoteApp .init [.start, .turn, .turn, .turn]).d ∧
    (SimpleTargetRunner.onLauncherFinished
      (simpleRun .remoteApp .init [.start, .turn, .turn, .turn])).d.state = .ToolStarting ∧
    (SimpleTargetRunner.onLauncherFinished
      (simpleRun .remoteApp .init [.start, .turn, .turn, .turn])).d.pending = [.toolStart] ∧
    (onToolSuccess (simpleRun .remoteApp .init [.start, .turn, .turn, .turn]).d).state =
      .Initialized ∧
    (SimpleTargetRunner.onLauncherFinished
      (simpleRun .remoteApp .init [.start, .turn, .turn, .turn])).d ≠
      onToolSuccess (simpleRun .remoteApp .init [.start, .turn, .turn, .turn]).d := by
  decide

/-- C26, amended: on a remote target `SimpleTargetRunner::start()` connects the remote
signals and starts the launcher remotely; when the launcher then reports completion
(`finished`), the runner disconnects and reports through `TargetRunner::reportSuccess`, so
the run control handles it as a target success, through `onTargetSuccess`: in
`TargetStarting` the state becomes `ToolStarting` and `toolRunner.start()` is queued. -/
theorem remote_finished_dispatch (cfg : SimpleConfig) (s : SimpleRun)
    (h : ProcessHandle) (q : List Cmd) (t : List Obs) (conn : List LauncherSignal)
    (calls : List LauncherCall) (ph : LauncherPhase)
    (hremote : isSynchronousLauncher cfg = false) :
    SimpleTargetRunner.start cfg s =
      ⟨s.d, remoteSignals, s.launcherCalls ++ [.startRemote], .starting⟩ ∧
    SimpleTargetRunner.onLauncherFinished s =
      ⟨onTargetSuccess s.d, [], s.launcherCalls, s.phase⟩ ∧
    SimpleTargetRunner.onLauncherFinished ⟨⟨.TargetStarting, h, q, t⟩, conn, calls, ph⟩ =
      ⟨⟨.ToolStarting, h, q ++ [.toolStart],
          t ++ [⟨.stateAssigned .TargetStarting .ToolStarting, .ToolStarting, h⟩]⟩,
        [], calls, ph⟩ := by
  refine ⟨by simp [SimpleTargetRunner.start, hremote], rfl, ?_⟩
  simp [SimpleTargetRunner.onLauncherFinished, TargetRunner.reportSuccess,
    onTargetSuccess_TargetStarting]

/-- Witness for C26: the remote sample configuration on a fresh run control. -/
theorem remote_finished_dispatch_witness :
    isSynchronousLauncher .remoteApp = false ∧
    (SimpleTargetRunner.start .remoteApp .init).launcherCalls = [] ++ [.startRemote] :=
  ⟨by decide, by
    rw [(remote_finished_dispatch .remoteApp .init 0 [] [] [] [] .idle (by decide)).1]
    rfl⟩

/-- C27: the claim says a `reportApplicationStop()` after the run control has stopped has
no effect.  On a run control in `Running` the first call stops it; the stored state is
then `Initialized`, not `Stopped`, so the guard of the second call does not hold and the
second call runs `targetRunner.onStop()`, both `onFinished` hooks and `finished` again. -/
theorem reportApplicationStop_twice_finishes_twice :
    RunControlPrivate.running.state = .Running ∧
    (RunControl.reportApplicationStop RunControlPrivate.running).state = .Initialized ∧
    appended (RunControl.reportApplicationStop RunControlPrivate.running)
        (RunControl.reportApplicationStop
          (RunControl.reportApplicationStop RunControlPrivate.running)) =
      [.targetOnStop, .qDebugUnexpectedState .TargetStopping .Initialized,
       .qDebugInvalidTransition .Initialized .Stopped,
       .stateAssigned .Initialized .Stopped, .toolOnFinished, .targetOnFinished,
       .finished] ∧
    occurrences .finished (RunControl.reportApplicationStop RunControlPrivate.running) = 1 ∧
    occurrences .finished (RunControl.reportApplicationStop
      (RunControl.reportApplicationStop RunControlPrivate.running)) = 2 := by
  decide

/-- C29: in `ToolStopping`, for every message, the handler used for a tool failure
(`onToolFailed`, which calls `onToolStartFailed`) and the dedicated `onToolStopFailed` end
in the same state with the same handle and queue, and their traces differ only in debug
logging: both call `targetRunner.onToolFailure()` once, append the message in Error format
when it is not empty and force `Stopped`; the handler used adds one `qDebug()` line of
`checkState` in front. -/
theorem onToolFailed_equiv_onToolStopFailed (h : ProcessHandle) (q : List Cmd)
    (t : List Obs) (msg : String) :
    onToolStopFailed ⟨.ToolStopping, h, q, t⟩ msg =
      ⟨.Initialized, noProcess, q,
        t ++ [⟨.targetOnToolFailure, .ToolStopping, h⟩] ++ errorEntry msg .ToolStopping h
          ++ stoppedTail .ToolStopping h⟩ ∧
    onToolFailed ⟨.ToolStopping, h, q, t⟩ msg =
      ⟨.Initialized, noProcess, q,
        t ++ [⟨.qDebugUnexpectedState .ToolStarting .ToolStopping, .ToolStopping, h⟩]
          ++ [⟨.targetOnToolFailure, .ToolStopping, h⟩] ++ errorEntry msg .ToolStopping h
          ++ stoppedTail .ToolStopping h⟩ ∧
    (onToolFailed ⟨.ToolStopping, h, q, t⟩ msg).state =
      (onToolStopFailed ⟨.ToolStopping, h, q, t⟩ msg).state ∧
    (onToolFailed ⟨.ToolStopping, h, q, t⟩ msg).applicationProcessHandle =
      (onToolStopFailed ⟨.ToolStopping, h, q, t⟩ msg).applicationProcessHandle ∧
    (onToolFailed ⟨.ToolStopping, h, q, t⟩ msg).pending =
      (onToolStopFailed ⟨.ToolStopping, h, q, t⟩ msg).pending ∧
    observable (onToolFailed ⟨.ToolStopping, h, q, t⟩ msg) =
      observable (onToolStopFailed ⟨.ToolStopping, h, q, t⟩ msg) := by
  have e1 : onToolStopFailed ⟨.ToolStopping, h, q, t⟩ msg =
      ⟨.Initialized, noProcess, q,
        t ++ [⟨.targetOnToolFailure, .ToolStopping, h⟩] ++ errorEntry msg .ToolStopping h
          ++ stoppedTail .ToolStopping h⟩ := by
    simp [onToolStopFailed, checkState, debugMessage, debugStates, emit, showError_eq,
      setState_Stopped_eq]
  have e2 : onToolFailed ⟨.ToolStopping, h, q, t⟩ msg =
      ⟨.Initialized, noProcess, q,
        t ++ [⟨.qDebugUnexpectedState .ToolStarting .ToolStopping, .ToolStopping, h⟩]
          ++ [⟨.targetOnToolFailure, .ToolStopping, h⟩] ++ errorEntry msg .ToolStopping h
          ++ stoppedTail .ToolStopping h⟩ := by
    rw [onToolFailed_stage _ _ _ _ _ (by decide)]
    simp
  refine ⟨e1, e2, ?_, ?_, ?_, ?_⟩ <;> rw [e1, e2]
  simp [observable, List.filter_append, isObservable]

/-! ### `Stopped` is never the state at rest -/

end ProjectExplorer

namespace ClangBackEnd

/-! ### `UsedMacro` -/

theorem Comparison.natural_isStrictTotal (α : Type) [LinearOrder α] :
    (Comparison.natural α).IsStrictTotal where
  irrefl := fun a => by simp [Comparison.natural]
  trans := fun a b d h₁ h₂ => by
    simp only [Comparison.natural, decide_eq_true_eq] at *
    exact lt_trans h₁ h₂
  total := fun a b => by
    simp only [Comparison.natural, decide_eq_true_eq]
    exact lt_trichotomy a b
  equal_iff := fun a b => by simp [Comparison.natural]

theorem Comparison.IsStrictTotal.asymm {α : Type} {c : Comparison α} (h : c.IsStrictTotal)
    (a b : α) (hab : c.less a b = true) : c.less b a = false := by
  cases hba : c.less b a
  · rfl
  · have := h.trans a b a hab hba
    rw [h.irrefl] at this
    exact absurd this (by decide)

theorem Comparison.IsStrictTotal.trichotomy {α : Type} {c : Comparison α} (h : c.IsStrictTotal)
    (a b : α) :
    (c.less a b = true ∧ c.equal a b = false ∧ c.less b a = false) ∨
    (a = b ∧ c.less a b = false ∧ c.equal a b = true ∧ c.less b a = false) ∨
    (c.less a b = false ∧ c.equal a b = false ∧ c.less b a = true) := by
  have hne : ∀ x y : α, c.less x y = true → c.equal x y = false := by
    intro x y hxy
    cases he : c.equal x y
    · rfl
    · have := (h.equal_iff x y).mp he
      subst this
      rw [h.irrefl] at hxy
      exact absurd hxy (by decide)
  have hsymm : ∀ x y : α, c.equal x y = false → c.equal y x = false := by
    intro x y hxy
    cases he : c.equal y x
    · rfl
    · have := (h.equal_iff y x).mp he
      subst this
      rw [hxy] at he
      exact absurd he (by decide)
  rcases h.total a b with hab | hab | hab
  · exact Or.inl ⟨hab, hne a b hab, h.asymm a b hab⟩
  · subst hab
    exact Or.inr (Or.inl ⟨rfl, h.irrefl a, (h.equal_iff a a).mpr rfl, h.irrefl a⟩)
  · exact Or.inr (Or.inr ⟨h.asymm b a hab, hsymm b a (hne b a hab), hab⟩)

/-- C31: the order of `UsedMacro`. With `operator<` of `FilePathId` and of the macro names
strict total orders and their `operator==` the equality of values: `first < second` holds
exactly when the file path id of `first` is less, or the two ids are equal and the macro
name of `first` is less; `operator<` is irreflexive and transitive; of `first < second`,
`first == second` and `second < first` exactly one holds; `operator==` holds exactly
between equal values; and `operator!=` is the negation of `operator==`. -/
theorem UsedMacro_strict_total_order {M F : Type} (ids : Comparison F) (names : Comparison M)
    (hF : ids.IsStrictTotal) (hM : names.IsStrictTotal) :
    (∀ a b : UsedMacro M F, UsedMacro.operatorLess ids names a b = true ↔
      (ids.less a.filePathId b.filePathId = true ∨
        (ids.equal a.filePathId b.filePathId = true ∧
          names.less a.macroName b.macroName = true))) ∧
    (∀ a : UsedMacro M F, UsedMacro.operatorLess ids names a a = false) ∧
    (∀ a b c : UsedMacro M F, UsedMacro.operatorLess ids names a b = true →
      UsedMacro.operatorLess ids names b c = true →
      UsedMacro.operatorLess ids names a c = true) ∧
    (∀ a b : UsedMacro M F,
      (UsedMacro.operatorLess ids names a b = true ∧
        UsedMacro.operatorEqual ids names a b = false ∧
        UsedMacro.operatorLess ids names b a = false) ∨
      (UsedMacro.operatorLess ids names a b = false ∧
        UsedMacro.operatorEqual ids names a b = true ∧
        UsedMacro.operatorLess ids names b a = false) ∨
      (UsedMacro.operatorLess ids names a b = false ∧
        UsedMacro.operatorEqual ids names a b = false ∧
        UsedMacro.operatorLess ids names b a = true)) ∧
    (∀ a b : UsedMacro M F, UsedMacro.operatorEqual ids names a b = true ↔ a = b) ∧
    (∀ a b : UsedMacro M F,
      UsedMacro.operatorNotEqual ids names a b = !UsedMacro.operatorEqual ids names a b) := by
  refine ⟨?_, ?_, ?_, ?_, ?_, ?_⟩
  · intro a b
    rcases hF.trichotomy a.filePathId b.filePathId with ⟨h₁, h₂, h₃⟩ | ⟨_, h₁, h₂, h₃⟩ | ⟨h₁, h₂, h₃⟩ <;>
      simp [UsedMacro.operatorLess, tupleLess, h₁, h₂, h₃]
  · intro a
    simp [UsedMacro.operatorLess, tupleLess, hF.irrefl, hM.irrefl]
  · intro a b c
    obtain ⟨an, af⟩ := a
    obtain ⟨bn, bf⟩ := b
    obtain ⟨cn, cf⟩ := c
    simp only [UsedMacro.operatorLess, tupleLess]
    rcases hF.trichotomy af bf with ⟨h₁, _, h₃⟩ | ⟨e₁, h₁, _, h₃⟩ | ⟨h₁, _, h₃⟩ <;>
      rcases hF.trichotomy bf cf with ⟨k₁, _, k₃⟩ | ⟨e₂, k₁, _, k₃⟩ | ⟨k₁, _, k₃⟩
    · have := hF.trans af bf cf h₁ k₁
      simp [this]
    · subst e₂
      simp [h₁]
    · simp [k₁, k₃]
    · subst e₁
      simp [k₁]
    · subst e₁
      subst e₂
      simp only [h₁, Bool.false_or, Bool.not_false, Bool.true_and]
      exact hM.trans an bn cn
    · simp [k₁, k₃]
    · simp [h₁, h₃]
    · simp [h₁, h₃]
    · simp [h₁, h₃]
  · intro a b
    obtain ⟨an, af⟩ := a
    obtain ⟨bn, bf⟩ := b
    simp only [UsedMacro.operatorLess, tupleLess, UsedMacro.operatorEqual]
    rcases hF.trichotomy af bf with ⟨h₁, h₂, h₃⟩ | ⟨_, h₁, h₂, h₃⟩ | ⟨h₁, h₂, h₃⟩ <;>
      rcases hM.trichotomy an bn with ⟨k₁, k₂, k₃⟩ | ⟨_, k₁, k₂, k₃⟩ | ⟨k₁, k₂, k₃⟩ <;>
      simp [h₁, h₂, h₃, k₁, k₂, k₃]
  · intro a b
    obtain ⟨an, af⟩ := a
    obtain ⟨bn, bf⟩ := b
    simp [UsedMacro.operatorEqual, hF.equal_iff, hM.equal_iff, and_comm]
  · intro a b
    rfl

/-- Witness for C31: ids compared as numbers and names as strings; the macro `B` of file 1
against the macro `A` of file 2. -/
theorem UsedMacro_strict_total_order_witness :
    (Comparison.natural Nat).IsStrictTotal ∧ (Comparison.natural String).IsStrictTotal ∧
    (UsedMacro.operatorLess (Comparison.natural Nat) (Comparison.natural String)
        ⟨"B", 1⟩ ⟨"A", 2⟩ = true ↔
      ((Comparison.natural Nat).less 1 2 = true ∨
        ((Comparison.natural Nat).equal 1 2 = true ∧
          (Comparison.natural String).less "B" "A" = true))) ∧
    (UsedMacro.operatorLess (Comparison.natural Nat) (Comparison.natural String)
        ⟨"B", 1⟩ ⟨"B", 1⟩ = false) ∧
    (UsedMacro.operatorNotEqual (Comparison.natural Nat) (Comparison.natural String)
        ⟨"B", 1⟩ ⟨"A", 2⟩ =
      !UsedMacro.operatorEqual (Comparison.natural Nat) (Comparison.natural String)
        ⟨"B", 1⟩ ⟨"A", 2⟩) :=
  ⟨Comparison.natural_isStrictTotal Nat, Comparison.natural_isStrictTotal String,
    (UsedMacro_strict_total_order (Comparison.natural Nat) (Comparison.natural String)
      (Comparison.natural_isStrictTotal Nat) (Comparison.natural_isStrictTotal String)).1
      ⟨"B", 1⟩ ⟨"A", 2⟩,
    (UsedMacro_strict_total_order (Comparison.natural Nat) (Comparison.natural String)
      (Comparison.natural_isStrictTotal Nat) (Comparison.natural_isStrictTotal String)).2.1
      ⟨"B", 1⟩,
    (UsedMacro_strict_total_order (Comparison.natural Nat) (Comparison.natural String)
      (Comparison.natural_isStrictTotal Nat) (Comparison.natural_isStrictTotal String)).2.2.2.2.2
      ⟨"B", 1⟩ ⟨"A", 2⟩⟩

end ClangBackEnd
